import Mathlib

/-!
# SimpleIOT Arduino client library: protocol layer and OTA update controller

A shallow embedding of `src/src/SimpleIOT.cpp` and `src/src/SimpleIOT.h`.

* C strings (`const char*`) are lists of characters, one `Char` per C `char`,
  the terminating NUL left implicit.
* Every method of the class takes the object as an explicit state and returns
  the list of externally visible effects (`Event`) it performs, in order.
  `Serial` logging is not part of the trace.
* The members of the ArduinoJson document are an ordered association list.
-/

/-! ## C strings -/

/-- A C string: the characters before the terminating NUL. -/
abbrev CStr := List Char

/-- The NUL character that terminates a C string. -/
def NUL : Char := Char.ofNat 0

/-- The library function `strncmp(s1, s2, n)`: compares at most `n` characters, stopping
at the first difference or at the terminator; the sign of the result orders the strings. -/
def strncmp : CStr → CStr → Nat → Int
  | _, _, 0 => 0
  | s1, s2, n + 1 =>
    if s1.headD NUL ≠ s2.headD NUL then ((s1.headD NUL).toNat : Int) - ((s2.headD NUL).toNat : Int)
    else if s1.headD NUL = NUL then 0
    else strncmp s1.tail s2.tail n

/-- The library function `strcmp(s1, s2)`: zero exactly when the strings are equal. -/
def strcmp : CStr → CStr → Int
  | [], [] => 0
  | [], b :: _ => -(b.toNat : Int)
  | a :: _, [] => (a.toNat : Int)
  | a :: as, b :: bs => if a = b then strcmp as bs else (a.toNat : Int) - (b.toNat : Int)

/-- The library function `strlen`. -/
def strlen (s : CStr) : Nat := s.length

/-- What `snprintf(buf, size, ...)` leaves in `buf` when the formatted text is `text`:
at most `size - 1` characters, then the terminator. -/
def snprintf (size : Nat) (text : CStr) : CStr := text.take (size - 1)

/-- The conversion `%.25s` of `snprintf`: at most the first 25 characters. -/
def precision25 (s : CStr) : CStr := s.take 25

/-! ## Constants of SimpleIOT.h and SimpleIOT.cpp -/

def INTERNAL_STATIC_BUFFER_SIZE : Nat := 100
def INTERNAL_TOPIC_BUFFER_SIZE : Nat := 200
def SimpleIOTInternalBufferSize : Nat := 1024
def DELAY_MS_BEFORE_RESTART : Nat := 2000
def MAXIMUM_JSON_PAYLOAD_SIZE : Nat := 1024
def OP_SET_DATA : CStr := "data/set".toList
def SIMPLEIOT_APP_TOPIC_PREFIX : CStr := "simpleiot_v1/app".toList
def SIMPLEIOT_APP_MONITOR_PREFIX : CStr := SIMPLEIOT_APP_TOPIC_PREFIX ++ "/monitor".toList
def SIMPLEIOT_ADM_TOPIC_PREFIX : CStr := "simpleiot_v1/adm".toList
def SIMPLEIOT_SYS_TOPIC_PREFIX : CStr := "simpleiot_v1/sys".toList
def SIMPLEIOT_DIAG_TOPIC_PREFIX : CStr := SIMPLEIOT_SYS_TOPIC_PREFIX ++ "/diag".toList
def UPDATE_TOPIC_PREFIX : CStr := "simpleiot_v1/adm/update".toList

inductive SimpleIOTMessageType
  | MESSAGE_APP
  | MESSAGE_ADM
  | MESSAGE_SYS
deriving DecidableEq, Repr

inductive SimpleIOTUpdateType
  | UPDATE_FIRMWARE
  | UPDATE_CONFIG
  | UPDATE_FILE
  | UPDATE_TEST
deriving DecidableEq, Repr

inductive SimpleIOTType
  | IOT_INT
  | IOT_FLOAT
  | IOT_DOUBLE
  | IOT_STRING
  | IOT_BOOLEAN
deriving DecidableEq, Repr

/-! ## The ArduinoJson document -/

/-- A value held by a member of the JSON document. -/
inductive JsonVariant
  | null
  | bool (b : Bool)
  | int (n : Int)
  | str (s : CStr)
deriving DecidableEq, Repr

/-- The root object of a `DynamicJsonDocument`: its members in insertion order. -/
abbrev JsonDocument := List (CStr × JsonVariant)

namespace JsonDocument

/-- The assignment `root[key] = value`: replaces the value of an existing member in place,
appends a new member otherwise. The memory pool of the document (1024 bytes) is taken to
have room for the member; the documents built here hold at most five members and copies
of the identity strings, which a topic of at most 199 characters keeps far below that. -/
def assign : JsonDocument → CStr → JsonVariant → JsonDocument
  | [], key, v => [(key, v)]
  | (k, w) :: rest, key, v =>
    if k = key then (k, v) :: rest else (k, w) :: assign rest key v

/-- The lookup `jdoc.getMember(key)`, also written `jdoc[key]`: the null variant when the
member is absent. -/
def getMember : JsonDocument → CStr → JsonVariant
  | [], _ => JsonVariant.null
  | (k, w) :: rest, key => if k = key then w else getMember rest key

end JsonDocument

namespace JsonVariant

/-- The test `variant.isNull()`. -/
def isNull : JsonVariant → Bool
  | null => true
  | _ => false

/-- The conversion `variant.as<const char*>()`, also the implicit conversion to
`const char*`: the null pointer (`none`) unless the variant holds a string. -/
def asCString : JsonVariant → Option CStr
  | str s => some s
  | _ => none

/-- The conversion `variant.as<bool>()`. -/
def asBool : JsonVariant → Bool
  | null => false
  | bool b => b
  | int n => decide (n ≠ 0)
  | str _ => true

end JsonVariant

/-- The Arduino constructor `String(const char*)`: the empty string for the null pointer. -/
def arduinoString : Option CStr → CStr
  | some s => s
  | none => []

/-- The character written after a backslash for a character that ArduinoJson escapes when it
serialises a string: the double quote, the backslash, and the control characters
backspace, form feed, newline, carriage return and tab. -/
def escapeChar (c : Char) : Option Char :=
  if c = Char.ofNat 34 then some (Char.ofNat 34)
  else if c = Char.ofNat 92 then some (Char.ofNat 92)
  else if c = Char.ofNat 8 then some 'b'
  else if c = Char.ofNat 12 then some 'f'
  else if c = Char.ofNat 10 then some 'n'
  else if c = Char.ofNat 13 then some 'r'
  else if c = Char.ofNat 9 then some 't'
  else none

/-- A string between double quotes, as `serializeJson` writes it. -/
def writeString (s : CStr) : CStr :=
  [Char.ofNat 34] ++ s.flatMap (fun c =>
    match escapeChar c with
    | some e => [Char.ofNat 92, e]
    | none => [c]) ++ [Char.ofNat 34]

/-- The text `serializeJson` writes for a value. -/
def writeVariant : JsonVariant → CStr
  | JsonVariant.null => "null".toList
  | JsonVariant.bool true => "true".toList
  | JsonVariant.bool false => "false".toList
  | JsonVariant.int n => (toString n).toList
  | JsonVariant.str s => writeString s

/-- The members of an object separated by commas. -/
def writeMembers : JsonDocument → CStr
  | [] => []
  | [(k, v)] => writeString k ++ [':'] ++ writeVariant v
  | (k, v) :: rest => writeString k ++ [':'] ++ writeVariant v ++ [','] ++ writeMembers rest

/-- The complete minified text of the document, without a length limit. -/
def writeObject (doc : JsonDocument) : CStr :=
  [Char.ofNat 123] ++ writeMembers doc ++ [Char.ofNat 125]

/-- The call `serializeJson(payload, jsonBuffer)` into a `char[size]` buffer: the text of
the document, cut where the buffer has no room left for it and its terminator. -/
def serializeJson (doc : JsonDocument) (size : Nat) : CStr :=
  (writeObject doc).take (size - 1)

/-! ## Effects -/

/-- An externally visible effect of the library. -/
inductive Event
  /-- The device publishes `payload` on `topic`, through the Greengrass gateway client
  when `viaGateway` holds and through the direct MQTT client otherwise. -/
  | publish (viaGateway : Bool) (topic payload : CStr)
  /-- Call of the application handler registered as `onTriggerUpdate`. -/
  | triggerUpdateCallback (version downloadUrl : CStr) (updateType : SimpleIOTUpdateType)
  /-- Call of the application handler registered as `onData`. -/
  | dataCallback (name value : CStr) (type : SimpleIOTType)
  /-- Call of the application handler registered as `onDiag`; `diagType` is the member
  the code converts to `SimpleIOTDiagType`. -/
  | diagCallback (diagId data : CStr) (diagType : JsonVariant)
  /-- Call of the progress handler passed to `performOTA`. -/
  | otaCallback (currentDownload totalDownload percent : Int)
  /-- The call `Update.begin(UPDATE_SIZE_UNKNOWN)`. -/
  | updateBegin
  /-- The call `Update.write(data, len)`. -/
  | updateWrite (len : Nat)
  /-- The call `Update.end(true)`: the flash commit. -/
  | updateEnd
  /-- The call `delay(ms)`. -/
  | delay (ms : Nat)
  /-- The call `ESP.restart()`. -/
  | restart
deriving DecidableEq, Repr

/-! ## The object -/

/-- The members of class `SimpleIOT` read or written by the modelled methods. A callback
member is `true` when the function pointer is not NULL. -/
structure SimpleIOT where
  _withGateway : Bool
  _project : CStr
  _model : CStr
  _serialNumber : CStr
  _fwVersion : CStr
  _dataCallback : Bool
  _diagCallback : Bool
  _triggerUpdateCallback : Bool
  _otaCallback : Bool
  _fwUpdateTotalLength : Int
  _fwUpdateCurrentLength : Int
  _fwUpdatePercent : Int
deriving DecidableEq, Repr

namespace SimpleIOT

/-! ## Outbound messages -/

/-- The method `_publish(topic, payload)`: one message through the gateway or the MQTT
client; the return value is always 0. -/
def _publish (s : SimpleIOT) (topic payload : CStr) : Int × List Event :=
  (0, [Event.publish s._withGateway topic payload])

/-- The topic prefix selected by the `switch (msgtype)` of `_sendRawMessage`. -/
def topicPrefix : SimpleIOTMessageType → CStr
  | SimpleIOTMessageType.MESSAGE_APP => SIMPLEIOT_APP_TOPIC_PREFIX
  | SimpleIOTMessageType.MESSAGE_ADM => SIMPLEIOT_ADM_TOPIC_PREFIX
  | SimpleIOTMessageType.MESSAGE_SYS => SIMPLEIOT_SYS_TOPIC_PREFIX

/-- The text formatted by `"%s/%s/%s/%s/%s"` in `_sendRawMessage`, before the buffer limit. -/
def topicText (s : SimpleIOT) (op : CStr) (msgtype : SimpleIOTMessageType) : CStr :=
  topicPrefix msgtype ++ ['/'] ++ op ++ ['/'] ++ s._project ++ ['/'] ++ s._model ++ ['/'] ++
    s._serialNumber

/-- The method `_sendRawMessage(op, payload, msgtype)`: serialises the document into
`jsonBuffer`, formats the topic into `topicBuffer` and publishes. -/
def _sendRawMessage (s : SimpleIOT) (op : CStr) (payload : JsonDocument)
    (msgtype : SimpleIOTMessageType) : Int × List Event :=
  let jsonBuffer := serializeJson payload SimpleIOTInternalBufferSize
  let topicBuffer := snprintf INTERNAL_TOPIC_BUFFER_SIZE (topicText s op msgtype)
  s._publish topicBuffer jsonBuffer

/-- The document built by the overload of `_sendMessage` without coordinates. -/
def setEnvelope (s : SimpleIOT) (name value : CStr) : JsonDocument :=
  let root : JsonDocument := []
  let root := root.assign "action".toList (JsonVariant.str "set".toList)
  let root := root.assign "project".toList (JsonVariant.str s._project)
  let root := root.assign "serial".toList (JsonVariant.str s._serialNumber)
  let root := root.assign "name".toList (JsonVariant.str name)
  let root := root.assign "value".toList (JsonVariant.str value)
  root

/-- The method `_sendMessage(op, name, value, msgtype)`. -/
def _sendMessage (s : SimpleIOT) (op name value : CStr) (msgtype : SimpleIOTMessageType) :
    Int × List Event :=
  s._sendRawMessage op (setEnvelope s name value) msgtype

/-- The method `set(const char* name, const char* value)`. -/
def set (s : SimpleIOT) (name value : CStr) : Int × List Event :=
  s._sendMessage OP_SET_DATA name value SimpleIOTMessageType.MESSAGE_APP

end SimpleIOT

/-! ## Inbound dispatch -/

/-- The branch taken by the if-chain of `_invokeCallback`. -/
inductive MessageClass
  | updateTrigger
  | admin
  | diagnostic
  | application
deriving DecidableEq, Repr

/-- The conditions of the if-chain of `_invokeCallback`, in the order the code tests them:
each is `strncmp(PREFIX, topic, strlen(PREFIX)) == 0`. -/
def classify (topic : CStr) : MessageClass :=
  if strncmp UPDATE_TOPIC_PREFIX topic (strlen UPDATE_TOPIC_PREFIX) = 0 then
    MessageClass.updateTrigger
  else if strncmp SIMPLEIOT_ADM_TOPIC_PREFIX topic (strlen SIMPLEIOT_ADM_TOPIC_PREFIX) = 0 then
    MessageClass.admin
  else if strncmp SIMPLEIOT_DIAG_TOPIC_PREFIX topic (strlen SIMPLEIOT_DIAG_TOPIC_PREFIX) = 0 then
    MessageClass.diagnostic
  else
    MessageClass.application

/-- The classification as the specification words it: update trigger if the topic starts
with `simpleiot_v1/adm/update`, otherwise admin if it starts with `simpleiot_v1/adm`,
otherwise diagnostic if it starts with `simpleiot_v1/sys/diag`, otherwise application. -/
def classifyRef (topic : CStr) : MessageClass :=
  if "simpleiot_v1/adm/update".toList <+: topic then MessageClass.updateTrigger
  else if "simpleiot_v1/adm".toList <+: topic then MessageClass.admin
  else if "simpleiot_v1/sys/diag".toList <+: topic then MessageClass.diagnostic
  else MessageClass.application

/-- The chain of `strcmp` tests on the `type` member in `_invokeCallback`. A C condition
holds when its value is not zero; `typeValue` keeps its initial value `IOT_STRING` when no
test holds. -/
def typeValueOf (typeStr : CStr) : SimpleIOTType :=
  if strcmp typeStr "string".toList ≠ 0 ∨ strcmp typeStr "str".toList ≠ 0 then
    SimpleIOTType.IOT_STRING
  else if strcmp typeStr "integer".toList ≠ 0 ∨ strcmp typeStr "int".toList ≠ 0 then
    SimpleIOTType.IOT_INT
  else if strcmp typeStr "float".toList ≠ 0 then
    SimpleIOTType.IOT_FLOAT
  else if strcmp typeStr "double".toList ≠ 0 then
    SimpleIOTType.IOT_DOUBLE
  else if strcmp typeStr "boolean".toList ≠ 0 ∨ strcmp typeStr "bool".toList ≠ 0 then
    SimpleIOTType.IOT_BOOLEAN
  else
    SimpleIOTType.IOT_STRING

/-- The type the specification assigns to a `type` member: the fixed vocabulary, and
string for anything else. -/
def typeValueRef (typeStr : CStr) : SimpleIOTType :=
  if typeStr = "string".toList ∨ typeStr = "str".toList then SimpleIOTType.IOT_STRING
  else if typeStr = "integer".toList ∨ typeStr = "int".toList then SimpleIOTType.IOT_INT
  else if typeStr = "float".toList then SimpleIOTType.IOT_FLOAT
  else if typeStr = "double".toList then SimpleIOTType.IOT_DOUBLE
  else if typeStr = "boolean".toList ∨ typeStr = "bool".toList then SimpleIOTType.IOT_BOOLEAN
  else SimpleIOTType.IOT_STRING

namespace SimpleIOT

/-- The method `_handleAdminRequest`: its body is empty. -/
def _handleAdminRequest (_s : SimpleIOT) (_topic : CStr) (_jdoc : JsonDocument) : List Event :=
  []

/-- The method `_handleDiagRequest`: calls the diagnostic handler when one is registered,
with the members `id` and `data` and the member `type`, which the code converts to `int`
on the way (the trace keeps the member); the result of the handler is not used. -/
def _handleDiagRequest (s : SimpleIOT) (_topic : CStr) (jdoc : JsonDocument) : List Event :=
  if s._diagCallback then
    let diagId := (jdoc.getMember "id".toList).asCString
    let diagData := (jdoc.getMember "data".toList).asCString
    let diagType := jdoc.getMember "type".toList
    [Event.diagCallback (arduinoString diagId) (arduinoString diagData) diagType]
  else
    []

/-- The method `_invokeCallback(topic, buffer, buflen)`, on the document `jdoc` that
`deserializeJson(jdoc, buffer)` produced. The result is `none` where the code calls through
a NULL function pointer or hands the null pointer to `strcmp`; otherwise it is the object
after the call and the handlers invoked. -/
def _invokeCallback (s : SimpleIOT) (topic : CStr) (jdoc : JsonDocument) :
    Option (SimpleIOT × List Event) :=
  match classify topic with
  | MessageClass.updateTrigger =>
    let _serial := (jdoc.getMember "device".toList).asCString
    let version := (jdoc.getMember "version".toList).asCString
    let payload_url := (jdoc.getMember "url".toList).asCString
    let _md5 := (jdoc.getMember "md5".toList).asCString
    let forceValue := jdoc.getMember "force".toList
    let _force := if !forceValue.isNull then forceValue.asBool else true
    let update_type := SimpleIOTUpdateType.UPDATE_FIRMWARE
    if s._triggerUpdateCallback then
      some (s, [Event.triggerUpdateCallback (arduinoString version) (arduinoString payload_url)
        update_type])
    else
      none
  | MessageClass.admin => some (s, s._handleAdminRequest topic jdoc)
  | MessageClass.diagnostic => some (s, s._handleDiagRequest topic jdoc)
  | MessageClass.application =>
    if s._dataCallback then
      let name := (jdoc.getMember "name".toList).asCString
      let value := (jdoc.getMember "value".toList).asCString
      let type := jdoc.getMember "type".toList
      if !type.isNull then
        match type.asCString with
        | some typeStr =>
          some (s, [Event.dataCallback (arduinoString name) (arduinoString value)
            (typeValueOf typeStr)])
        | none => none
      else
        some (s, [Event.dataCallback (arduinoString name) (arduinoString value)
          SimpleIOTType.IOT_STRING])
    else
      some (s, [])

end SimpleIOT

/-! ## Arithmetic of the progress percentage

The percentage is computed by `int((float(current) / float(total)) * 100.0)`: two
conversions from `int` to binary32, a binary32 division, a binary64 product with the
`double` constant `100.0`, and a truncating conversion to `int`. The values below are
finite floating-point numbers `(-1)^neg * man * 2^exp`. Every quotient of two 32-bit
integers lies well inside the normal range of binary32, so the only rounding is the one to
24 significant bits (to nearest, ties to even). -/

/-- The position of the leading bit of `n`, by halving at most `fuel` times. -/
def floorLog2Aux : Nat → Nat → Nat
  | 0, _ => 0
  | fuel + 1, n => if 2 ≤ n then floorLog2Aux fuel (n / 2) + 1 else 0

/-- The position of the leading bit of `n`: the largest `k` with `2 ^ k ≤ n`, for `n > 0`. -/
def floorLog2 (n : Nat) : Nat := floorLog2Aux n n

/-- The fraction `n / d` divided by `2 ^ e`, as a numerator and a denominator. -/
def scaleRatio (n d : Nat) (e : Int) : Nat × Nat :=
  if 0 ≤ e then (n, d * 2 ^ e.toNat) else (n * 2 ^ (-e).toNat, d)

/-- The positive fraction `n / d` rounded to 24 significant bits, to nearest with ties to
even: the pair `(m, e)` stands for `m * 2 ^ e`. -/
def roundSig24 (n d : Nat) : Nat × Int :=
  let e0 : Int := (floorLog2 n : Int) - (floorLog2 d : Int) - 23
  let e : Int := if (scaleRatio n d e0).1 < 2 ^ 23 * (scaleRatio n d e0).2 then e0 - 1 else e0
  let N := (scaleRatio n d e).1
  let D := (scaleRatio n d e).2
  let q := N / D
  let r := N % D
  let m := if 2 * r < D then q else if D < 2 * r then q + 1 else if q % 2 = 0 then q else q + 1
  (m, e)

/-- A finite floating-point value `(-1)^neg * man * 2^exp`. -/
structure FloatVal where
  neg : Bool
  man : Nat
  exp : Int
deriving DecidableEq, Repr

namespace FloatVal

/-- The conversion `float(x)` of an `int`. -/
def ofInt (x : Int) : FloatVal :=
  if x = 0 then ⟨false, 0, 0⟩
  else ⟨decide (x < 0), (roundSig24 x.natAbs 1).1, (roundSig24 x.natAbs 1).2⟩

/-- The binary32 quotient `a / b`. A zero divisor gives an infinity or a NaN in C++, whose
conversion to `int` is undefined; the model has zero there, and no statement below is about
that case. -/
def div (a b : FloatVal) : FloatVal :=
  if a.man = 0 ∨ b.man = 0 then ⟨false, 0, 0⟩
  else
    let n := if b.exp ≤ a.exp then a.man * 2 ^ (a.exp - b.exp).toNat else a.man
    let d := if b.exp ≤ a.exp then b.man else b.man * 2 ^ (b.exp - a.exp).toNat
    ⟨xor a.neg b.neg, (roundSig24 n d).1, (roundSig24 n d).2⟩

/-- The binary64 product `a * 100.0` of a binary32 value promoted to `double`: exact,
because the product of a 24-bit and a 7-bit significand has at most 31 bits. -/
def mul100 (a : FloatVal) : FloatVal := ⟨a.neg, a.man * 100, a.exp⟩

/-- The conversion `int(a)`: truncation toward zero. -/
def toInt (a : FloatVal) : Int :=
  let mag : Nat := if 0 ≤ a.exp then a.man * 2 ^ a.exp.toNat else a.man / 2 ^ (-a.exp).toNat
  if a.neg then -(mag : Int) else (mag : Int)

end FloatVal

/-- The expression `int((float(current) / float(total)) * 100.0)` of `_updateFirmware`. -/
def percentOf (current total : Int) : Int :=
  ((FloatVal.div (FloatVal.ofInt current) (FloatVal.ofInt total)).mul100).toInt

/-- The value of a 32-bit `int` after an addition carried out modulo `2 ^ 32`. -/
def wrapInt32 (x : Int) : Int := (x + 2 ^ 31) % 2 ^ 32 - 2 ^ 31

/-! ## The update controller -/

/-- The result of a method that may end in `ESP.restart()`: the object, the effects, and
whether the device restarted (after which the method never returns to its caller). -/
structure Outcome where
  state : SimpleIOT
  events : List Event
  restarted : Bool
deriving DecidableEq, Repr

/-- One pass of the download loop of `performOTA` while the client is connected:
`available` is the result of `stream->available()`, `delivered` the number of bytes that
reach `readBytes` before it gives up. -/
structure StreamPoll where
  available : Nat
  delivered : Nat
deriving DecidableEq, Repr

namespace SimpleIOT

/-- The document built by `_doUpdate(op, force)`. -/
def updateEnvelope (s : SimpleIOT) (op : CStr) (force : Bool) : JsonDocument :=
  let root : JsonDocument := []
  let root := root.assign "project".toList (JsonVariant.str s._project)
  let root := root.assign "serial".toList (JsonVariant.str s._serialNumber)
  let root := root.assign "version".toList (JsonVariant.str s._fwVersion)
  let root := root.assign "op".toList (JsonVariant.str op)
  if force then root.assign "force".toList (JsonVariant.bool true) else root

/-- The method `_doUpdate(op, force)`. -/
def _doUpdate (s : SimpleIOT) (op : CStr) (force : Bool) : List Event :=
  (s._sendRawMessage op (updateEnvelope s op force) SimpleIOTMessageType.MESSAGE_ADM).2

/-- The method `checkForUpdate(force)`: it writes no member, so the object is returned as it
was, with the effects of `_doUpdate`. -/
def checkForUpdate (s : SimpleIOT) (force : Bool) : SimpleIOT × List Event :=
  (s, s._doUpdate "check".toList force)

/-- The method `_updateReceived()`. -/
def _updateReceived (s : SimpleIOT) : List Event :=
  s._doUpdate "received".toList false

/-- The method `updateInstalled()`: it writes no member, so the object is returned as it
was, with the effects of `_doUpdate`. -/
def updateInstalled (s : SimpleIOT) : SimpleIOT × List Event :=
  (s, s._doUpdate "installed".toList false)

/-- The method `_updateFirmware(data, len)`: writes the chunk, adds its length to
`_fwUpdateCurrentLength` (an `int` to which a `size_t` is added), reports the percentage
when a handler is registered and the percentage differs from `_fwUpdatePercent`, and
returns unless the current length equals the total length; in that case it commits the
image, sends the "received" message, waits and restarts the device. -/
def _updateFirmware (s : SimpleIOT) (len : Nat) : Outcome :=
  let current := wrapInt32 (s._fwUpdateCurrentLength + (len : Int))
  let percent := percentOf current s._fwUpdateTotalLength
  let report := s._otaCallback && decide (percent ≠ s._fwUpdatePercent)
  let s1 := { s with
    _fwUpdateCurrentLength := current
    _fwUpdatePercent := if report then percent else s._fwUpdatePercent }
  let progress := [Event.updateWrite len] ++
    (if report then [Event.otaCallback current s._fwUpdateTotalLength percent] else [])
  if current ≠ s._fwUpdateTotalLength then
    ⟨s1, progress, false⟩
  else
    ⟨s1, progress ++ [Event.updateEnd] ++ s1._updateReceived ++
      [Event.delay DELAY_MS_BEFORE_RESTART, Event.restart], true⟩

/-- Successive calls `_updateFirmware(buff, c)`, one for each chunk, as the download loop
makes them; nothing runs after the device has restarted. -/
def ingest (s : SimpleIOT) : List Nat → Outcome
  | [] => ⟨s, [], false⟩
  | len :: rest =>
    let r := s._updateFirmware len
    if r.restarted then r
    else
      let r2 := ingest r.state rest
      ⟨r2.state, r.events ++ r2.events, r2.restarted⟩

/-- The first statements of `performOTA` up to the assignment of the total length: the
handler is stored, the progress is reset and the length reported by `client.getSize()` is
taken as the total. -/
def startDownload (s : SimpleIOT) (otaCallback : Bool) (size : Int) : SimpleIOT :=
  { s with
    _otaCallback := otaCallback
    _fwUpdateTotalLength := size
    _fwUpdateCurrentLength := 0
    _fwUpdatePercent := 0 }

/-- The loop `while (client.connected() && (len > 0 || len == -1))` of `performOTA`. The list
holds one entry for each pass in which `client.connected()` holds; the client is
disconnected when the list is exhausted. A pass reads at most
`min(available, sizeof(buff))` bytes, hands them to `_updateFirmware`, subtracts them
from `len` when `len > 0`, and waits one millisecond. -/
def downloadLoop (s : SimpleIOT) (len : Int) : List StreamPoll → Outcome
  | [] => ⟨s, [], false⟩
  | p :: rest =>
    if 0 < len ∨ len = -1 then
      if p.available ≠ 0 then
        let c := min p.delivered (min p.available 128)
        let r := s._updateFirmware c
        if r.restarted then r
        else
          let len1 := if 0 < len then len - (c : Int) else len
          let r2 := downloadLoop r.state len1 rest
          ⟨r2.state, r.events ++ [Event.delay 1] ++ r2.events, r2.restarted⟩
      else
        let r2 := downloadLoop s len rest
        ⟨r2.state, Event.delay 1 :: r2.events, r2.restarted⟩
    else
      ⟨s, [], false⟩

/-- The method `performOTA(url, otaCallback)`: `resp` is the result of `client.GET()`,
`size` the result of `client.getSize()` (-1 when the server sends no Content-Length) and
`stream` the behaviour of the connection during the download loop. -/
def performOTA (s : SimpleIOT) (otaCallback : Bool) (resp size : Int)
    (stream : List StreamPoll) : Outcome :=
  if 0 < resp then
    let r := downloadLoop (s.startDownload otaCallback size) size stream
    ⟨r.state, Event.updateBegin :: r.events, r.restarted⟩
  else
    ⟨s.startDownload otaCallback 0, [], false⟩

end SimpleIOT

/-- The number of bytes a pass of the download loop reads. -/
def StreamPoll.bytes (p : StreamPoll) : Nat :=
  if p.available ≠ 0 then min p.delivered (min p.available 128) else 0

/-- The number of bytes the connection delivers over the listed passes. -/
def streamBytes (stream : List StreamPoll) : Nat := (stream.map StreamPoll.bytes).sum

/-- The progress reports of a trace, in order: current length, total length, percent. -/
def progressReports : List Event → List (Int × Int × Int)
  | [] => []
  | Event.otaCallback current total percent :: rest =>
    (current, total, percent) :: progressReports rest
  | _ :: rest => progressReports rest

/-- The progress reports the specification prescribes for a download of `total` bytes:
after each chunk the percentage of the bytes received so far is computed, and it is
reported exactly when it differs from the percentage reported last (`last`, initially 0). -/
def expectedReports (total : Int) : Int → Int → List Nat → List (Int × Int × Int)
  | _, _, [] => []
  | current, last, len :: rest =>
    let current1 := current + (len : Int)
    let percent := percentOf current1 total
    if percent ≠ last then (current1, total, percent) :: expectedReports total current1 percent rest
    else expectedReports total current1 last rest

/-! ## The decoded payload -/

/-- The codes of ArduinoJson's `DeserializationError`. -/
inductive DeserializationError
  | Ok
  | EmptyInput
  | IncompleteInput
  | InvalidInput
  | NoMemory
  | TooDeep
deriving DecidableEq, Repr

/-- The outcome of `deserializeJson(jdoc, buffer)` on a payload: the code it returns and the
members it leaves in `jdoc` (none when the payload is rejected at its first character). -/
structure Decoded where
  error : DeserializationError
  jdoc : JsonDocument
deriving DecidableEq, Repr

namespace SimpleIOT

/-- The method `_invokeCallback(topic, buffer, buflen)` from the payload on: the statement
`deserializeJson(jdoc, buffer);` discards the code the call returns, and the dispatch runs
on whatever the call left in `jdoc`. -/
def _invokeCallbackOnPayload (s : SimpleIOT) (topic : CStr) (decoded : Decoded) :
    Option (SimpleIOT × List Event) :=
  let _error := decoded.error
  s._invokeCallback topic decoded.jdoc

end SimpleIOT

/-! ## The overloads of `set` -/

/-- The text the conversion `%d` writes for an `int`: a minus sign for a negative number,
then the decimal digits. -/
def formatD (n : Int) : CStr :=
  if n < 0 then '-' :: Nat.toDigits 10 n.natAbs else Nat.toDigits 10 n.natAbs

namespace SimpleIOT

/-- The overload `set(const char* name, int value)`: the value is formatted with `%d` into a
buffer of `INTERNAL_STATIC_BUFFER_SIZE` characters. -/
def setInt (s : SimpleIOT) (name : CStr) (value : Int) : Int × List Event :=
  let buffer := snprintf INTERNAL_STATIC_BUFFER_SIZE (formatD value)
  s._sendMessage OP_SET_DATA name buffer SimpleIOTMessageType.MESSAGE_APP

/-- The overload `set(const char* name, boolean value)`. -/
def setBool (s : SimpleIOT) (name : CStr) (value : Bool) : Int × List Event :=
  s._sendMessage OP_SET_DATA name (if value then "true".toList else "false".toList)
    SimpleIOTMessageType.MESSAGE_APP

/-- The document built by the overload of `_sendMessage` with coordinates; `lat_str` and
`lng_str` are the texts `sprintf` wrote for the coordinates with `%3.4f`. -/
def geoEnvelope (s : SimpleIOT) (name value lat_str lng_str : CStr) : JsonDocument :=
  let root : JsonDocument := []
  let root := root.assign "action".toList (JsonVariant.str "set".toList)
  let root := root.assign "project".toList (JsonVariant.str s._project)
  let root := root.assign "serial".toList (JsonVariant.str s._serialNumber)
  let root := root.assign "name".toList (JsonVariant.str name)
  let root := root.assign "value".toList (JsonVariant.str value)
  let root := root.assign "geo_lat".toList (JsonVariant.str lat_str)
  let root := root.assign "geo_lng".toList (JsonVariant.str lng_str)
  root

/-- The method `_sendMessage(op, name, value, lat, lng, msgtype)`. The formatting of the two
`float` coordinates is not modelled: the texts it produces are the arguments `lat_str` and
`lng_str`. -/
def _sendMessageGeo (s : SimpleIOT) (op name value lat_str lng_str : CStr)
    (msgtype : SimpleIOTMessageType) : Int × List Event :=
  s._sendRawMessage op (geoEnvelope s name value lat_str lng_str) msgtype

/-- The overload `set(const char* name, const char* value, float latitude, float longitude)`. -/
def setGeo (s : SimpleIOT) (name value lat_str lng_str : CStr) : Int × List Event :=
  s._sendMessageGeo OP_SET_DATA name value lat_str lng_str SimpleIOTMessageType.MESSAGE_APP

/-- The overload `set(const char* name, int value, float latitude, float longitude)`. -/
def setIntGeo (s : SimpleIOT) (name : CStr) (value : Int) (lat_str lng_str : CStr) :
    Int × List Event :=
  let buffer := snprintf INTERNAL_STATIC_BUFFER_SIZE (formatD value)
  s._sendMessageGeo OP_SET_DATA name buffer lat_str lng_str SimpleIOTMessageType.MESSAGE_APP

/-- The overload `set(const char* name, boolean value, float latitude, float longitude)`. -/
def setBoolGeo (s : SimpleIOT) (name : CStr) (value : Bool) (lat_str lng_str : CStr) :
    Int × List Event :=
  s._sendMessageGeo OP_SET_DATA name (if value then "true".toList else "false".toList)
    lat_str lng_str SimpleIOTMessageType.MESSAGE_APP

/-! ## Configuration -/

/-- The assignments of `config` to the identity and handler members of the object. The
network set-up that follows them (Wi-Fi, TLS, the MQTT or gateway connection and the
subscriptions) is not modelled. -/
def config (s : SimpleIOT) (project model serialNumber fwVersion : CStr)
    (onData onTriggerUpdate onDiag : Bool) : SimpleIOT :=
  { s with
    _project := project
    _model := model
    _serialNumber := serialNumber
    _fwVersion := fwVersion
    _dataCallback := onData
    _triggerUpdateCallback := onTriggerUpdate
    _diagCallback := onDiag }

end SimpleIOT

/-- The text `config` formats into `_monitorTopicBuffer`, the topic it subscribes to for
data: `snprintf` with the format `"%.25s/%.25s/%.25s/%.25s/#"`. -/
def monitorTopicBuffer (project model serialNumber : CStr) : CStr :=
  snprintf INTERNAL_TOPIC_BUFFER_SIZE
    (precision25 SIMPLEIOT_APP_MONITOR_PREFIX ++ ['/'] ++ precision25 project ++ ['/'] ++
      precision25 model ++ ['/'] ++ precision25 serialNumber ++ "/#".toList)

/-- The text `config` formats into `_triggerUpdateTopicBuffer`, the topic it subscribes to
for update triggers: `snprintf` with the format `"%.25s/%.25s/%.25s/%.25s"`. -/
def triggerUpdateTopicBuffer (project model serialNumber : CStr) : CStr :=
  snprintf INTERNAL_TOPIC_BUFFER_SIZE
    (precision25 UPDATE_TOPIC_PREFIX ++ ['/'] ++ precision25 project ++ ['/'] ++
      precision25 model ++ ['/'] ++ precision25 serialNumber)

/-- The sizes of the chunks written to flash in a trace, in order. -/
def writtenChunks : List Event → List Nat
  | [] => []
  | Event.updateWrite len :: rest => len :: writtenChunks rest
  | _ :: rest => writtenChunks rest

/-- The device of the examples: project Sunshine, model M1, serial TIE-DEMO01, direct MQTT,
all handlers registered, no download started. -/
def demoDevice : SimpleIOT where
  _withGateway := false
  _project := "Sunshine".toList
  _model := "M1".toList
  _serialNumber := "TIE-DEMO01".toList
  _fwVersion := "1.0.0".toList
  _dataCallback := true
  _diagCallback := true
  _triggerUpdateCallback := true
  _otaCallback := true
  _fwUpdateTotalLength := 0
  _fwUpdateCurrentLength := 0
  _fwUpdatePercent := 0

/-- A device whose project name has 200 characters, the other members as in `demoDevice`. -/
def longNameDevice : SimpleIOT :=
  { demoDevice with _project := List.replicate 200 'A' }

/-- The topics of the messages published in a trace, in order. -/
def publishedTopics : List Event → List CStr
  | [] => []
  | Event.publish _ topic _ :: rest => topic :: publishedTopics rest
  | _ :: rest => publishedTopics rest

/-- The payloads of the messages published in a trace, in order. -/
def publishedPayloads : List Event → List CStr
  | [] => []
  | Event.publish _ _ payload :: rest => payload :: publishedPayloads rest
  | _ :: rest => publishedPayloads rest

/-- The topic schema of the protocol: namespace, operation, project, model and serial
number, separated by slashes. -/
def schemaTopic (ns op project model serial : CStr) : CStr :=
  ns ++ ['/'] ++ op ++ ['/'] ++ project ++ ['/'] ++ model ++ ['/'] ++ serial

/-! # Theorems -/

/-! ## Buffers -/

theorem snprintf_of_fits (size : Nat) (text : CStr) (h : text.length < size) :
    snprintf size text = text := by
  unfold snprintf
  exact List.take_of_length_le (by omega)

theorem serializeJson_of_fits (doc : JsonDocument) (size : Nat)
    (h : (writeObject doc).length < size) : serializeJson doc size = writeObject doc := by
  unfold serializeJson
  exact List.take_of_length_le (by omega)

namespace SimpleIOT

theorem setEnvelope_members (s : SimpleIOT) (name value : CStr) :
    setEnvelope s name value =
      [("action".toList, JsonVariant.str "set".toList),
       ("project".toList, JsonVariant.str s._project),
       ("serial".toList, JsonVariant.str s._serialNumber),
       ("name".toList, JsonVariant.str name),
       ("value".toList, JsonVariant.str value)] := by
  simp [setEnvelope, JsonDocument.assign]

theorem topicText_eq_schema (s : SimpleIOT) (op : CStr) (msgtype : SimpleIOTMessageType) :
    topicText s op msgtype =
      schemaTopic (topicPrefix msgtype) op s._project s._model s._serialNumber := rfl

/-! ## C1: the set message -/

/-- C1: for every identity, name and string value whose topic fits the 199 characters of
the topic buffer and whose envelope fits the payload buffer, `set(name, value)` publishes
exactly one message; its topic is `simpleiot_v1/app/data/set/<project>/<model>/<serial>`
and its payload is the object with the five members action = "set", project, serial, name
and value, in that order and with no other member. -/
theorem set_publishes_five_field_envelope (s : SimpleIOT) (name value : CStr)
    (htopic : ("simpleiot_v1/app/data/set/".toList ++ s._project ++ ['/'] ++ s._model ++ ['/']
      ++ s._serialNumber).length ≤ 199)
    (hfit : (writeObject
      [("action".toList, JsonVariant.str "set".toList),
       ("project".toList, JsonVariant.str s._project),
       ("serial".toList, JsonVariant.str s._serialNumber),
       ("name".toList, JsonVariant.str name),
       ("value".toList, JsonVariant.str value)]).length < SimpleIOTInternalBufferSize) :
    (s.set name value).2 =
      [Event.publish s._withGateway
        ("simpleiot_v1/app/data/set/".toList ++ s._project ++ ['/'] ++ s._model ++ ['/']
          ++ s._serialNumber)
        (writeObject
          [("action".toList, JsonVariant.str "set".toList),
           ("project".toList, JsonVariant.str s._project),
           ("serial".toList, JsonVariant.str s._serialNumber),
           ("name".toList, JsonVariant.str name),
           ("value".toList, JsonVariant.str value)])] := by
  have htext : topicText s OP_SET_DATA SimpleIOTMessageType.MESSAGE_APP =
      "simpleiot_v1/app/data/set/".toList ++ s._project ++ ['/'] ++ s._model ++ ['/']
        ++ s._serialNumber := by
    simp [topicText, topicPrefix, OP_SET_DATA, SIMPLEIOT_APP_TOPIC_PREFIX]
  have h1 : snprintf INTERNAL_TOPIC_BUFFER_SIZE
      (topicText s OP_SET_DATA SimpleIOTMessageType.MESSAGE_APP) =
      topicText s OP_SET_DATA SimpleIOTMessageType.MESSAGE_APP := by
    apply snprintf_of_fits
    rw [htext]
    have : INTERNAL_TOPIC_BUFFER_SIZE = 200 := rfl
    omega
  have h2 := serializeJson_of_fits _ _ hfit
  rw [htext] at h1
  rw [← setEnvelope_members] at h2 ⊢
  simp only [set, _sendMessage, _sendRawMessage, _publish, htext, h1, h2]

/-- C1, the scenario of the specification: Sunshine / M1 / TIE-DEMO01 sets oil_pressure
to "20". -/
theorem set_publishes_five_field_envelope_witness :
    (demoDevice.set "oil_pressure".toList "20".toList).2 =
      [Event.publish false "simpleiot_v1/app/data/set/Sunshine/M1/TIE-DEMO01".toList
        "\x7b\"action\":\"set\",\"project\":\"Sunshine\",\"serial\":\"TIE-DEMO01\",\"name\":\"oil_pressure\",\"value\":\"20\"\x7d".toList] :=
  (set_publishes_five_field_envelope demoDevice "oil_pressure".toList "20".toList
    (by decide) (by decide)).trans (by decide)

end SimpleIOT

/-! ## C2: classification of inbound topics -/

theorem Char.toNat_eq_iff (a b : Char) : a.toNat = b.toNat ↔ a = b := by
  constructor
  · intro h
    apply Char.ext
    apply UInt32.ext
    exact h
  · intro h
    rw [h]

theorem Char.toNat_NUL : NUL.toNat = 0 := by decide

/-- For a prefix without NUL, `strncmp(prefix, topic, strlen(prefix)) == 0` says that the
topic starts with the prefix. -/
theorem strncmp_eq_zero_iff_starts (p : CStr) (hp : NUL ∉ p) (t : CStr) :
    strncmp p t (strlen p) = 0 ↔ p <+: t := by
  induction p generalizing t with
  | nil => simp [strlen, strncmp]
  | cons a p ih =>
    have ha : a ≠ NUL := fun h => hp (by simp [h])
    have hp1 : NUL ∉ p := fun h => hp (by simp [h])
    have hlen : strlen (a :: p) = strlen p + 1 := by simp [strlen]
    rw [hlen]
    cases t with
    | nil =>
      have h0 : (a.toNat : Int) ≠ 0 := by
        intro h
        apply ha
        rw [← Char.toNat_eq_iff, Char.toNat_NUL]
        exact_mod_cast h
      simp [strncmp, ha, Char.toNat_NUL, h0]
    | cons b t =>
      by_cases hab : a = b
      · subst hab
        simp [strncmp, ha, ih hp1 t, List.cons_prefix_cons]
      · have hne : (a.toNat : Int) - (b.toNat : Int) ≠ 0 := by
          intro h
          apply hab
          rw [← Char.toNat_eq_iff]
          omega
        simp [strncmp, hab, hne, List.cons_prefix_cons]

/-- The if-chain of `_invokeCallback` and the reference classification agree. -/
theorem classify_eq_classifyRef (topic : CStr) : classify topic = classifyRef topic := by
  have h1 := strncmp_eq_zero_iff_starts UPDATE_TOPIC_PREFIX (by decide) topic
  have h2 := strncmp_eq_zero_iff_starts SIMPLEIOT_ADM_TOPIC_PREFIX (by decide) topic
  have h3 := strncmp_eq_zero_iff_starts SIMPLEIOT_DIAG_TOPIC_PREFIX (by decide) topic
  have e1 : UPDATE_TOPIC_PREFIX = "simpleiot_v1/adm/update".toList := rfl
  have e2 : SIMPLEIOT_ADM_TOPIC_PREFIX = "simpleiot_v1/adm".toList := rfl
  have e3 : SIMPLEIOT_DIAG_TOPIC_PREFIX = "simpleiot_v1/sys/diag".toList := by decide
  rw [e1] at h1
  rw [e2] at h2
  rw [e3] at h3
  unfold classify classifyRef
  simp only [h1, h2, h3, e1, e2, e3]

/-- C2: on every topic string the if-chain of `_invokeCallback` selects the class of the
reference function (update trigger, else admin, else diagnostic, else application, each by
"starts with"); the selection is a total function, and a topic that starts with none of
the prefixes is an application message, never rejected. -/
theorem classify_eq_reference (topic : CStr) :
    classify topic = classifyRef topic ∧
      ((¬ "simpleiot_v1/adm".toList <+: topic ∧ ¬ "simpleiot_v1/sys/diag".toList <+: topic) →
        classify topic = MessageClass.application) := by
  have hup : "simpleiot_v1/adm/update".toList <+: topic → "simpleiot_v1/adm".toList <+: topic :=
    fun h => List.IsPrefix.trans (by decide) h
  refine ⟨classify_eq_classifyRef topic, ?_⟩
  rintro ⟨hadm, hdiag⟩
  rw [classify_eq_classifyRef]
  unfold classifyRef
  rw [if_neg (fun h => hadm (hup h)), if_neg hadm, if_neg hdiag]

/-! ## Arithmetic lemmas -/

theorem wrapInt32_of_range (x : Int) (h0 : 0 ≤ x) (h1 : x < 2 ^ 31) : wrapInt32 x = x := by
  unfold wrapInt32
  have e1 : (2 : Int) ^ 31 = 2147483648 := by norm_num
  have e2 : (2 : Int) ^ 32 = 4294967296 := by norm_num
  rw [e1] at h1
  rw [e1, e2]
  omega

theorem floorLog2Aux_le (fuel n : Nat) (hn : 0 < n) (hf : n ≤ fuel) :
    2 ^ floorLog2Aux fuel n ≤ n := by
  induction fuel generalizing n with
  | zero => omega
  | succ fuel ih =>
    unfold floorLog2Aux
    split_ifs with h2
    · have := ih (n / 2) (by omega) (by omega)
      rw [pow_succ]
      omega
    · simpa using hn

theorem floorLog2_le (n : Nat) (hn : 0 < n) : 2 ^ floorLog2 n ≤ n :=
  floorLog2Aux_le n n hn (le_refl n)

/-- A number divided by itself rounds to one: significand `2 ^ 23`, exponent `-23`. -/
theorem roundSig24_self (n : Nat) (hn : 0 < n) : roundSig24 n n = (2 ^ 23, -23) := by
  have hs : scaleRatio n n (-23) = (n * 8388608, n) := by
    simp [scaleRatio]
  have hq : n * 8388608 / n = 8388608 := Nat.mul_div_cancel_left _ hn
  have hr : n * 8388608 % n = 0 := Nat.mul_mod_right _ _
  have h1 : ¬ (n * 8388608 < 8388608 * n) := by omega
  have h2 : (8388608 : Nat) % 2 = 0 := by norm_num
  unfold roundSig24
  simp only [sub_self, zero_sub]
  norm_num [hs, h1, hq, hr, hn]

theorem floorLog2_one : floorLog2 1 = 0 := by decide

theorem scaleRatio_one_le (n : Nat) (hn : 0 < n) (e : Int) (he : e ≤ (floorLog2 n : Int)) :
    0 < (scaleRatio n 1 e).2 ∧ (scaleRatio n 1 e).2 ≤ (scaleRatio n 1 e).1 := by
  unfold scaleRatio
  split_ifs with h
  · have h1 : e.toNat ≤ floorLog2 n := by omega
    have h2 : 2 ^ e.toNat ≤ 2 ^ floorLog2 n := Nat.pow_le_pow_right (by norm_num) h1
    have h3 := floorLog2_le n hn
    have h4 : 0 < 2 ^ e.toNat := Nat.pos_pow_of_pos _ (by norm_num)
    simp only [one_mul]
    exact ⟨h4, le_trans h2 h3⟩
  · have h4 : 0 < 2 ^ (-e).toNat := Nat.pos_pow_of_pos _ (by norm_num)
    refine ⟨by norm_num, ?_⟩
    show 1 ≤ n * 2 ^ (-e).toNat
    exact Nat.mul_pos hn h4

/-- The conversion of a nonzero integer to binary32 is not zero. -/
theorem roundSig24_one_ne_zero (n : Nat) (hn : 0 < n) : (roundSig24 n 1).1 ≠ 0 := by
  unfold roundSig24
  simp only [floorLog2_one]
  generalize he : (if (scaleRatio n 1 ((floorLog2 n : Int) - ((0 : Nat) : Int) - 23)).1 <
      2 ^ 23 * (scaleRatio n 1 ((floorLog2 n : Int) - ((0 : Nat) : Int) - 23)).2
    then (floorLog2 n : Int) - ((0 : Nat) : Int) - 23 - 1
    else (floorLog2 n : Int) - ((0 : Nat) : Int) - 23) = e
  have hle : e ≤ (floorLog2 n : Int) := by
    rw [← he]
    split_ifs <;> omega
  obtain ⟨hD, hND⟩ := scaleRatio_one_le n hn e hle
  have hq : 0 < (scaleRatio n 1 e).1 / (scaleRatio n 1 e).2 := Nat.div_pos hND hD
  split_ifs <;> omega

/-- A complete download reports one hundred percent: `float(T) / float(T)` is exactly one. -/
theorem percentOf_self (T : Int) (hT : 0 < T) : percentOf T T = 100 := by
  have hne : T ≠ 0 := by omega
  have hnat : 0 < T.natAbs := Int.natAbs_pos.mpr hne
  have hman := roundSig24_one_ne_zero T.natAbs hnat
  have hself := roundSig24_self (roundSig24 T.natAbs 1).1 (Nat.pos_of_ne_zero hman)
  unfold percentOf FloatVal.div FloatVal.ofInt
  simp only [hne, if_false, hman, or_self, le_refl, if_true, sub_self, Int.toNat_zero, pow_zero,
    mul_one, hself, Bool.xor_self]
  decide

/-! ## One call of `_updateFirmware` -/

theorem progressReports_append (xs ys : List Event) :
    progressReports (xs ++ ys) = progressReports xs ++ progressReports ys := by
  induction xs with
  | nil => rfl
  | cons x xs ih => cases x <;> simp [progressReports, ih]

theorem publishedTopics_append (xs ys : List Event) :
    publishedTopics (xs ++ ys) = publishedTopics xs ++ publishedTopics ys := by
  induction xs with
  | nil => rfl
  | cons x xs ih => cases x <;> simp [publishedTopics, ih]

namespace SimpleIOT

/-- The message `_updateReceived` publishes: one message on the admin topic of operation
"received". -/
theorem updateReceived_events (s : SimpleIOT) :
    s._updateReceived =
      [Event.publish s._withGateway
        (snprintf INTERNAL_TOPIC_BUFFER_SIZE
          (schemaTopic "simpleiot_v1/adm".toList "received".toList s._project s._model
            s._serialNumber))
        (serializeJson (updateEnvelope s "received".toList false) SimpleIOTInternalBufferSize)] :=
  rfl

theorem updateFirmware_state (s : SimpleIOT) (len : Nat) :
    (s._updateFirmware len).state =
      { s with
        _fwUpdateCurrentLength := wrapInt32 (s._fwUpdateCurrentLength + (len : Int))
        _fwUpdatePercent :=
          if s._otaCallback = true ∧
              percentOf (wrapInt32 (s._fwUpdateCurrentLength + (len : Int))) s._fwUpdateTotalLength
                ≠ s._fwUpdatePercent
          then percentOf (wrapInt32 (s._fwUpdateCurrentLength + (len : Int))) s._fwUpdateTotalLength
          else s._fwUpdatePercent } := by
  unfold _updateFirmware
  generalize wrapInt32 (s._fwUpdateCurrentLength + (len : Int)) = c
  generalize hpc : percentOf c s._fwUpdateTotalLength = pc
  by_cases hc : c = s._fwUpdateTotalLength
  · subst hc
    by_cases hcb : s._otaCallback = true <;> by_cases hp : pc = s._fwUpdatePercent <;>
    simp [hcb, hp, hpc]
  · by_cases hcb : s._otaCallback = true <;> by_cases hp : pc = s._fwUpdatePercent <;>
    simp [hcb, hp, hpc, hc]

theorem updateFirmware_restarted (s : SimpleIOT) (len : Nat) :
    (s._updateFirmware len).restarted =
      decide (wrapInt32 (s._fwUpdateCurrentLength + (len : Int)) = s._fwUpdateTotalLength) := by
  unfold _updateFirmware
  generalize wrapInt32 (s._fwUpdateCurrentLength + (len : Int)) = c
  generalize hpc : percentOf c s._fwUpdateTotalLength = pc
  by_cases hc : c = s._fwUpdateTotalLength
  · subst hc
    by_cases hcb : s._otaCallback = true <;> by_cases hp : pc = s._fwUpdatePercent <;>
    simp [hcb, hp, hpc]
  · by_cases hcb : s._otaCallback = true <;> by_cases hp : pc = s._fwUpdatePercent <;>
    simp [hcb, hp, hpc, hc]

/-- The effects of one call: the flash write, the progress report when the percentage
changed, and, exactly when the current length has reached the total, the commit, the
"received" message, the delay and the restart. -/
theorem updateFirmware_events (s : SimpleIOT) (len : Nat) :
    (s._updateFirmware len).events =
      [Event.updateWrite len] ++
      (if s._otaCallback = true ∧
            percentOf (wrapInt32 (s._fwUpdateCurrentLength + (len : Int))) s._fwUpdateTotalLength
              ≠ s._fwUpdatePercent
        then [Event.otaCallback (wrapInt32 (s._fwUpdateCurrentLength + (len : Int)))
          s._fwUpdateTotalLength
          (percentOf (wrapInt32 (s._fwUpdateCurrentLength + (len : Int))) s._fwUpdateTotalLength)]
        else []) ++
      (if wrapInt32 (s._fwUpdateCurrentLength + (len : Int)) = s._fwUpdateTotalLength
        then [Event.updateEnd] ++ s._updateReceived ++
          [Event.delay DELAY_MS_BEFORE_RESTART, Event.restart]
        else []) := by
  unfold _updateFirmware
  generalize wrapInt32 (s._fwUpdateCurrentLength + (len : Int)) = c
  generalize hpc : percentOf c s._fwUpdateTotalLength = pc
  by_cases hc : c = s._fwUpdateTotalLength
  · subst hc
    by_cases hcb : s._otaCallback = true <;> by_cases hp : pc = s._fwUpdatePercent <;>
    simp [hcb, hp, hpc, updateReceived_events, updateEnvelope]
  · by_cases hcb : s._otaCallback = true <;> by_cases hp : pc = s._fwUpdatePercent <;>
    simp [hcb, hp, hpc, hc, updateReceived_events, updateEnvelope]

end SimpleIOT

/-! ## Sequences of chunks -/

namespace SimpleIOT

theorem ingest_nil (s : SimpleIOT) : ingest s [] = ⟨s, [], false⟩ := rfl

theorem ingest_cons_restarted (s : SimpleIOT) (c : Nat) (rest : List Nat)
    (h : (s._updateFirmware c).restarted = true) :
    ingest s (c :: rest) = s._updateFirmware c := by
  simp [ingest, h]

theorem ingest_cons_running (s : SimpleIOT) (c : Nat) (rest : List Nat)
    (h : (s._updateFirmware c).restarted = false) :
    ingest s (c :: rest) =
      ⟨(ingest (s._updateFirmware c).state rest).state,
        (s._updateFirmware c).events ++ (ingest (s._updateFirmware c).state rest).events,
        (ingest (s._updateFirmware c).state rest).restarted⟩ := by
  simp [ingest, h]

theorem ingest_append (xs ys : List Nat) (s : SimpleIOT)
    (h : (ingest s xs).restarted = false) :
    ingest s (xs ++ ys) =
      ⟨(ingest (ingest s xs).state ys).state,
        (ingest s xs).events ++ (ingest (ingest s xs).state ys).events,
        (ingest (ingest s xs).state ys).restarted⟩ := by
  induction xs generalizing s with
  | nil => simp [ingest_nil]
  | cons c xs ih =>
    by_cases hr : (s._updateFirmware c).restarted = true
    · rw [ingest_cons_restarted s c xs hr] at h
      rw [hr] at h
      exact absurd h (by simp)
    · have hr1 : (s._updateFirmware c).restarted = false := by simpa using hr
      rw [ingest_cons_running s c xs hr1] at h ⊢
      simp only at h
      rw [List.cons_append, ingest_cons_running s c (xs ++ ys) hr1, ih _ h]
      simp [List.append_assoc]

/-- While the bytes received stay below the total length, the download keeps running:
the current length is the number of bytes received, nothing is committed and nothing is
published. -/
theorem ingest_below (T : Int) (hT32 : T < 2 ^ 31) (chunks : List Nat) (s : SimpleIOT)
    (htotal : s._fwUpdateTotalLength = T) (hcur : 0 ≤ s._fwUpdateCurrentLength)
    (hsum : s._fwUpdateCurrentLength + (chunks.sum : Int) < T) :
    (ingest s chunks).restarted = false ∧
    (∃ p, (ingest s chunks).state =
      { s with
        _fwUpdateCurrentLength := s._fwUpdateCurrentLength + (chunks.sum : Int)
        _fwUpdatePercent := p }) ∧
    Event.updateEnd ∉ (ingest s chunks).events ∧
    publishedTopics (ingest s chunks).events = [] := by
  induction chunks generalizing s with
  | nil =>
    refine ⟨rfl, ⟨s._fwUpdatePercent, ?_⟩, by simp [ingest_nil], by simp [ingest_nil, publishedTopics]⟩
    simp [ingest_nil]
  | cons c rest ih =>
    have hc0 : (0 : Int) ≤ (c : Int) := Int.natCast_nonneg c
    have hr0 : (0 : Int) ≤ (rest.sum : Int) := Int.natCast_nonneg _
    have hsum1 : s._fwUpdateCurrentLength + (c : Int) + (rest.sum : Int) < T := by
      have : ((c :: rest).sum : Int) = (c : Int) + (rest.sum : Int) := by
        simp [List.sum_cons]
      omega
    have hw : wrapInt32 (s._fwUpdateCurrentLength + (c : Int)) =
        s._fwUpdateCurrentLength + (c : Int) :=
      wrapInt32_of_range _ (by omega) (by omega)
    have hne : s._fwUpdateCurrentLength + (c : Int) ≠ s._fwUpdateTotalLength := by omega
    have hrun : (s._updateFirmware c).restarted = false := by
      rw [updateFirmware_restarted, hw]
      simpa using hne
    have hst := updateFirmware_state s c
    rw [hw] at hst
    have hev := updateFirmware_events s c
    rw [hw, if_neg hne] at hev
    obtain ⟨h1, ⟨p, h2⟩, h3, h4⟩ := ih (s._updateFirmware c).state
      (by rw [hst]; exact htotal) (by rw [hst]; simp only; omega)
      (by rw [hst]; simp only; omega)
    rw [ingest_cons_running s c rest hrun]
    refine ⟨h1, ⟨p, ?_⟩, ?_, ?_⟩
    · simp only
      rw [h2, hst]
      simp [List.sum_cons, add_assoc]
    · simp only [List.mem_append, not_or]
      refine ⟨?_, h3⟩
      rw [hev]
      split_ifs <;> simp
    · simp only
      rw [publishedTopics_append, h4, hev]
      split_ifs <;> simp [publishedTopics]

end SimpleIOT

namespace SimpleIOT

/-- With a handler registered and a known total length, the reports of a download that
does not run past the total are the ones prescribed: one after each chunk whose
percentage differs from the percentage reported last. -/
theorem ingest_reports (T : Int) (hT32 : T < 2 ^ 31) (chunks : List Nat) (s : SimpleIOT)
    (htotal : s._fwUpdateTotalLength = T) (hcb : s._otaCallback = true)
    (hcur : 0 ≤ s._fwUpdateCurrentLength) (hpos : ∀ c ∈ chunks, 0 < c)
    (hsum : s._fwUpdateCurrentLength + (chunks.sum : Int) ≤ T) :
    progressReports (ingest s chunks).events =
      expectedReports T s._fwUpdateCurrentLength s._fwUpdatePercent chunks := by
  induction chunks generalizing s with
  | nil => simp [ingest_nil, progressReports, expectedReports]
  | cons c rest ih =>
    have hc0 : 0 < c := hpos c (by simp)
    have hr0 : (0 : Int) ≤ (rest.sum : Int) := Int.natCast_nonneg _
    have hsum1 : s._fwUpdateCurrentLength + (c : Int) + (rest.sum : Int) ≤ T := by
      have : ((c :: rest).sum : Int) = (c : Int) + (rest.sum : Int) := by
        simp [List.sum_cons]
      omega
    have hw : wrapInt32 (s._fwUpdateCurrentLength + (c : Int)) =
        s._fwUpdateCurrentLength + (c : Int) :=
      wrapInt32_of_range _ (by omega) (by omega)
    have hst := updateFirmware_state s c
    rw [hw, htotal] at hst
    have hev := updateFirmware_events s c
    rw [hw, htotal] at hev
    have hrs := updateFirmware_restarted s c
    rw [hw, htotal] at hrs
    by_cases hfin : s._fwUpdateCurrentLength + (c : Int) = T
    · have hrest : rest = [] := by
        cases rest with
        | nil => rfl
        | cons d rest2 =>
          have hd : 0 < d := hpos d (by simp)
          have : ((d :: rest2).sum : Int) = (d : Int) + (rest2.sum : Int) := by
            simp [List.sum_cons]
          have h2 : (0 : Int) ≤ (rest2.sum : Int) := Int.natCast_nonneg _
          omega
      subst hrest
      rw [ingest_cons_restarted s c [] (by rw [hrs]; simpa using hfin), hev, if_pos hfin]
      unfold expectedReports
      by_cases hp : percentOf (s._fwUpdateCurrentLength + (c : Int)) T = s._fwUpdatePercent
      · simp [hp, hcb, progressReports, updateReceived_events, expectedReports]
      · simp [hp, hcb, progressReports, updateReceived_events, expectedReports]
    · have hrun : (s._updateFirmware c).restarted = false := by
        rw [hrs]
        simpa using hfin
      rw [ingest_cons_running s c rest hrun]
      simp only
      rw [progressReports_append, ih (s._updateFirmware c).state (by rw [hst])
        (by rw [hst]; exact hcb) (by rw [hst]; simp only; omega)
        (fun d hd => hpos d (by simp [hd])) (by rw [hst]; simp only; omega), hev, if_neg hfin, hst]
      conv_rhs => unfold expectedReports
      by_cases hp : percentOf (s._fwUpdateCurrentLength + (c : Int)) T = s._fwUpdatePercent
      · simp [hp, hcb, progressReports]
      · simp [hp, hcb, progressReports]

end SimpleIOT

/-- A download that ends exactly at the total length ends on one hundred percent: the
percentage of the last prescribed report is 100 (or the percentage reported last already
was 100 and nothing more is reported). -/
theorem expectedReports_last (T : Int) (hT : 0 < T) (chunks : List Nat) (hne : chunks ≠ [])
    (current last : Int) (hsum : current + (chunks.sum : Int) = T) :
    (((expectedReports T current last chunks).getLast?).map (fun r => r.2.2)).getD last = 100 := by
  induction chunks generalizing current last with
  | nil => exact absurd rfl hne
  | cons c rest ih =>
    cases rest with
    | nil =>
      have hc : current + (c : Int) = T := by simpa using hsum
      by_cases hl : (100 : Int) = last
      · simp [hl, expectedReports, hc, percentOf_self T hT]
      · simp [hl, expectedReports, hc, percentOf_self T hT]
    | cons d rest2 =>
      have hsum1 : current + (c : Int) + ((d :: rest2).sum : Int) = T := by
        have : ((c :: d :: rest2).sum : Int) = (c : Int) + ((d :: rest2).sum : Int) := by
          simp [List.sum_cons]
        omega
      unfold expectedReports
      simp only
      by_cases hp : percentOf (current + (c : Int)) T = last
      · rw [if_neg (by simpa using hp)]
        exact ih (by simp) _ _ hsum1
      · rw [if_pos hp]
        have := ih (by simp) (current + (c : Int)) (percentOf (current + (c : Int)) T) hsum1
        rw [List.getLast?_cons]
        cases hE : (expectedReports T (current + (c : Int)) (percentOf (current + (c : Int)) T)
          (d :: rest2)).getLast? with
        | none => rw [hE] at this; simpa using this
        | some r => rw [hE] at this; simpa using this

theorem expectedReports_total (T : Int) (chunks : List Nat) (current last : Int) :
    ∀ r ∈ expectedReports T current last chunks, r.2.1 = T := by
  induction chunks generalizing current last with
  | nil => simp [expectedReports]
  | cons c rest ih =>
    intro r hr
    unfold expectedReports at hr
    simp only at hr
    split_ifs at hr with hp
    · rcases List.mem_cons.mp hr with h | h
      · rw [h]
      · exact ih _ _ r h
    · exact ih _ _ r hr

namespace SimpleIOT

/-! ## C3: progress is reported on change and ends at one hundred -/

/-- C3: for every known total length T > 0 (a 32-bit `int`) and every sequence of chunks of
positive sizes that sum to T, starting from the progress state reset by `performOTA` with a
progress handler registered, the handler is called after a chunk exactly when the
percentage computed for that chunk differs from the percentage reported last (initially
0), and the last call reports 100 percent. -/
theorem progress_reported_on_change_ends_at_100 (s : SimpleIOT) (T : Int) (chunks : List Nat)
    (hT : 0 < T) (hT32 : T < 2 ^ 31) (hpos : ∀ c ∈ chunks, 0 < c)
    (hsum : (chunks.sum : Int) = T) :
    progressReports (ingest (s.startDownload true T) chunks).events =
      expectedReports T 0 0 chunks ∧
    ∃ current, (progressReports (ingest (s.startDownload true T) chunks).events).getLast? =
      some (current, T, 100) := by
  have hrep := ingest_reports T hT32 chunks (s.startDownload true T) rfl rfl (le_refl _) hpos
    (by simp only [startDownload]; omega)
  have hrep1 : progressReports (ingest (s.startDownload true T) chunks).events =
      expectedReports T 0 0 chunks := hrep
  refine ⟨hrep1, ?_⟩
  have hne : chunks ≠ [] := by
    intro h
    rw [h] at hsum
    simp at hsum
    omega
  have hlast := expectedReports_last T hT chunks hne 0 0 (by omega)
  rw [hrep1]
  cases hE : (expectedReports T 0 0 chunks).getLast? with
  | none => rw [hE] at hlast; simp at hlast
  | some r =>
    rw [hE] at hlast
    have hmem : r ∈ expectedReports T 0 0 chunks := List.mem_of_getLast?_eq_some hE
    have htot := expectedReports_total T chunks 0 0 r hmem
    have h100 : r.2.2 = 100 := by simpa using hlast
    refine ⟨r.1, ?_⟩
    rw [← htot, ← h100]

/-- C3 on the download of the specification: 256 bytes in chunks of 100, 100 and 56. -/
theorem progress_reported_on_change_ends_at_100_witness :
    progressReports (ingest (demoDevice.startDownload true 256) [100, 100, 56]).events =
      expectedReports 256 0 0 [100, 100, 56] ∧
    ∃ current, (progressReports
      (ingest (demoDevice.startDownload true 256) [100, 100, 56]).events).getLast? =
        some (current, 256, 100) :=
  progress_reported_on_change_ends_at_100 demoDevice 256 [100, 100, 56] (by decide) (by decide)
    (by decide) (by decide)

/-! ## C4: one commit and one "received" message, at the total length only -/

/-- C4: for every known total length T > 0 and every download started by `performOTA`:
when a chunk brings the current length to T, the flash commit and the "received" message
happen in the same call of `_updateFirmware`, right after the write (and the progress
report) of that chunk, each exactly once, nothing having been committed or published
before and no later chunk being ingested; and when the chunks end below T, nothing is
committed and nothing is published. -/
theorem commit_and_received_once_at_total (s : SimpleIOT) (cb : Bool) (T : Int) (hT : 0 < T)
    (hT32 : T < 2 ^ 31) :
    (∀ (pre : List Nat) (c : Nat) (rest : List Nat), 0 < c → ((pre.sum + c : Nat) : Int) = T →
      (Event.updateEnd ∉ (ingest (s.startDownload cb T) pre).events ∧
        publishedTopics (ingest (s.startDownload cb T) pre).events = []) ∧
      (∃ report, (∀ e ∈ report, ∃ a b p, e = Event.otaCallback a b p) ∧
        (ingest (s.startDownload cb T) (pre ++ c :: rest)).events =
          (ingest (s.startDownload cb T) pre).events ++ [Event.updateWrite c] ++ report ++
            [Event.updateEnd,
             Event.publish s._withGateway
              (snprintf INTERNAL_TOPIC_BUFFER_SIZE
                (schemaTopic "simpleiot_v1/adm".toList "received".toList s._project s._model
                  s._serialNumber))
              (serializeJson (updateEnvelope s "received".toList false)
                SimpleIOTInternalBufferSize),
             Event.delay DELAY_MS_BEFORE_RESTART, Event.restart]) ∧
      List.count Event.updateEnd (ingest (s.startDownload cb T) (pre ++ c :: rest)).events = 1 ∧
      (publishedTopics (ingest (s.startDownload cb T) (pre ++ c :: rest)).events).length = 1) ∧
    (∀ chunks : List Nat, (chunks.sum : Int) < T →
      (ingest (s.startDownload cb T) chunks).restarted = false ∧
      Event.updateEnd ∉ (ingest (s.startDownload cb T) chunks).events ∧
      publishedTopics (ingest (s.startDownload cb T) chunks).events = []) := by
  constructor
  · intro pre c rest hc hsum
    have hsum0 : (pre.sum : Int) + (c : Int) = T := by exact_mod_cast hsum
    have hc0 : (0 : Int) < (c : Int) := by exact_mod_cast hc
    have hp0 : (0 : Int) ≤ (pre.sum : Int) := Int.natCast_nonneg _
    obtain ⟨hrun, ⟨p, hst⟩, hend, hpub⟩ := ingest_below T hT32 pre (s.startDownload cb T) rfl
      (le_refl _) (by simp only [startDownload]; omega)
    have hcur : (ingest (s.startDownload cb T) pre).state._fwUpdateCurrentLength =
        (pre.sum : Int) := by
      rw [hst]
      simp [startDownload]
    have htot : (ingest (s.startDownload cb T) pre).state._fwUpdateTotalLength = T := by
      rw [hst]
      simp [startDownload]
    have hw : wrapInt32 ((ingest (s.startDownload cb T) pre).state._fwUpdateCurrentLength +
        (c : Int)) = T := by
      rw [hcur, hsum0]
      exact wrapInt32_of_range T (le_of_lt hT) hT32
    have hrs : ((ingest (s.startDownload cb T) pre).state._updateFirmware c).restarted = true := by
      rw [updateFirmware_restarted, hw, htot]
      simp
    have hev := updateFirmware_events (ingest (s.startDownload cb T) pre).state c
    rw [hw, htot, if_pos rfl] at hev
    have hrecv : (ingest (s.startDownload cb T) pre).state._updateReceived =
        [Event.publish s._withGateway
          (snprintf INTERNAL_TOPIC_BUFFER_SIZE
            (schemaTopic "simpleiot_v1/adm".toList "received".toList s._project s._model
              s._serialNumber))
          (serializeJson (updateEnvelope s "received".toList false)
            SimpleIOTInternalBufferSize)] := by
      rw [updateReceived_events, hst]
      simp [startDownload, updateEnvelope]
    have hall : (ingest (s.startDownload cb T) (pre ++ c :: rest)).events =
        (ingest (s.startDownload cb T) pre).events ++
          ((ingest (s.startDownload cb T) pre).state._updateFirmware c).events := by
      rw [ingest_append pre (c :: rest) _ hrun, ingest_cons_restarted _ c rest hrs]
    rw [hrecv] at hev
    refine ⟨⟨hend, hpub⟩, ?_, ?_, ?_⟩
    · refine ⟨if (ingest (s.startDownload cb T) pre).state._otaCallback = true ∧
          percentOf T T ≠ (ingest (s.startDownload cb T) pre).state._fwUpdatePercent
        then [Event.otaCallback T T (percentOf T T)] else [], ?_, ?_⟩
      · intro e he
        split_ifs at he
        · simp only [List.mem_singleton] at he
          exact ⟨_, _, _, he⟩
        · simp at he
      · rw [hall, hev]
        simp only [List.append_assoc, List.singleton_append, List.cons_append, List.nil_append]
    · rw [hall, hev, List.count_append, List.count_eq_zero_of_not_mem hend]
      split_ifs <;> simp [List.count_cons]
    · rw [hall, hev, publishedTopics_append, hpub]
      split_ifs <;> simp [publishedTopics]
  · intro chunks hsum
    obtain ⟨hrun, _, hend, hpub⟩ := ingest_below T hT32 chunks (s.startDownload cb T) rfl
      (le_refl _) (by simp only [startDownload]; omega)
    exact ⟨hrun, hend, hpub⟩

end SimpleIOT

namespace SimpleIOT

/-- C4 on the download of the specification: after the chunks 100, 100 and 56 of a
256-byte image there is one commit and one published message, and after the chunks 100 and
100 alone there is none. -/
theorem commit_and_received_once_at_total_witness :
    (List.count Event.updateEnd
        (ingest (demoDevice.startDownload true 256) ([100, 100] ++ 56 :: [])).events = 1 ∧
      (publishedTopics
        (ingest (demoDevice.startDownload true 256) ([100, 100] ++ 56 :: [])).events).length = 1) ∧
    (Event.updateEnd ∉ (ingest (demoDevice.startDownload true 256) [100, 100]).events ∧
      publishedTopics (ingest (demoDevice.startDownload true 256) [100, 100]).events = []) :=
  ⟨((commit_and_received_once_at_total demoDevice true 256 (by decide) (by decide)).1
      [100, 100] 56 [] (by decide) (by decide)).2.2,
    ((commit_and_received_once_at_total demoDevice true 256 (by decide) (by decide)).2
      [100, 100] (by decide)).2⟩

end SimpleIOT

/-! ## C5: the type hint of a data message -/

theorem strcmp_append_cons (c : CStr) (a : Char) (r : CStr) :
    strcmp (c ++ a :: r) c = (a.toNat : Int) := by
  induction c with
  | nil => simp [strcmp]
  | cons b c ih => simp [strcmp, ih]

theorem prefix_of_strcmp_eq_zero (c : CStr) (hc : NUL ∉ c) (t : CStr) (h : strcmp t c = 0) :
    c <+: t := by
  induction c generalizing t with
  | nil => exact List.nil_prefix
  | cons b c ih =>
    have hb : b ≠ NUL := fun e => hc (by simp [e])
    have hc1 : NUL ∉ c := fun e => hc (by simp [e])
    cases t with
    | nil =>
      exfalso
      apply hb
      rw [← Char.toNat_eq_iff, Char.toNat_NUL]
      simp only [strcmp] at h
      omega
    | cons a t =>
      by_cases hab : a = b
      · subst hab
        simp only [strcmp, if_true] at h
        rw [List.cons_prefix_cons]
        exact ⟨rfl, ih hc1 t h⟩
      · exfalso
        apply hab
        rw [← Char.toNat_eq_iff]
        simp only [strcmp, hab, if_false] at h
        omega

/-- The first test of the chain always holds: no string equals both "string" and "str",
so one of the two `strcmp` results is not zero and the type is `IOT_STRING`. -/
theorem typeValueOf_eq_string (typeStr : CStr) : typeValueOf typeStr = SimpleIOTType.IOT_STRING := by
  have hkey : strcmp typeStr "string".toList ≠ 0 ∨ strcmp typeStr "str".toList ≠ 0 := by
    by_contra hcon
    push_neg at hcon
    obtain ⟨h1, h2⟩ := hcon
    obtain ⟨r, hr⟩ := prefix_of_strcmp_eq_zero "string".toList (by decide) typeStr h1
    have hsplit : typeStr = "str".toList ++ 'i' :: ("ng".toList ++ r) := by
      rw [← hr]
      rfl
    rw [hsplit, strcmp_append_cons] at h2
    revert h2
    decide
  unfold typeValueOf
  rw [if_pos hkey]

namespace SimpleIOT

/-- C5, evaluated: a data message whose `type` member is "int" (or any other string)
reaches the data handler with type `IOT_STRING`, where the vocabulary of the
specification gives `IOT_INT` for "int". -/
theorem type_hint_always_string :
    (∀ typeStr : CStr, typeValueOf typeStr = SimpleIOTType.IOT_STRING) ∧
    demoDevice._invokeCallback "simpleiot_v1/app/monitor/Sunshine/M1/TIE-DEMO01/oil".toList
        [("name".toList, JsonVariant.str "oil_pressure".toList),
         ("value".toList, JsonVariant.str "20".toList),
         ("type".toList, JsonVariant.str "int".toList)] =
      some (demoDevice, [Event.dataCallback "oil_pressure".toList "20".toList
        SimpleIOTType.IOT_STRING]) ∧
    typeValueRef "int".toList = SimpleIOTType.IOT_INT :=
  ⟨typeValueOf_eq_string, by decide, by decide⟩

/-! ## C6: outbound topics -/

theorem sendRawMessage_topic (s : SimpleIOT) (op : CStr) (payload : JsonDocument)
    (msgtype : SimpleIOTMessageType)
    (hfit : (schemaTopic (topicPrefix msgtype) op s._project s._model s._serialNumber).length
      ≤ 199) :
    publishedTopics (s._sendRawMessage op payload msgtype).2 =
      [schemaTopic (topicPrefix msgtype) op s._project s._model s._serialNumber] := by
  have h1 : snprintf INTERNAL_TOPIC_BUFFER_SIZE (topicText s op msgtype) =
      topicText s op msgtype := by
    apply snprintf_of_fits
    rw [topicText_eq_schema]
    have : INTERNAL_TOPIC_BUFFER_SIZE = 200 := rfl
    omega
  rw [topicText_eq_schema] at h1
  simp only [_sendRawMessage, _publish, publishedTopics, topicText_eq_schema, h1]

/-- C6, as stated, fails for the System class: operation "heartbeat" of the device
Sunshine / M1 / TIE-DEMO01 is published on `simpleiot_v1/sys/heartbeat/...`, not on
`simpleiot_v1/sys/diag/heartbeat/...`, although the topic fits the buffer and no identity
field is empty. -/
theorem sys_topic_lacks_diag_segment :
    (schemaTopic "simpleiot_v1/sys/diag".toList "heartbeat".toList demoDevice._project
      demoDevice._model demoDevice._serialNumber).length ≤ 199 ∧
    demoDevice._project ≠ [] ∧ demoDevice._model ≠ [] ∧ demoDevice._serialNumber ≠ [] ∧
    publishedTopics (demoDevice._sendRawMessage "heartbeat".toList []
        SimpleIOTMessageType.MESSAGE_SYS).2 =
      ["simpleiot_v1/sys/heartbeat/Sunshine/M1/TIE-DEMO01".toList] ∧
    publishedTopics (demoDevice._sendRawMessage "heartbeat".toList []
        SimpleIOTMessageType.MESSAGE_SYS).2 ≠
      [schemaTopic "simpleiot_v1/sys/diag".toList "heartbeat".toList demoDevice._project
        demoDevice._model demoDevice._serialNumber] := by
  decide

/-- C6, amended: for every identity, operation and document, the topic `_sendRawMessage`
publishes on is `<namespace>/<op>/<project>/<model>/<serial>` whenever that text has at
most 199 characters, with namespace `simpleiot_v1/app` for the Application class,
`simpleiot_v1/adm` for the Admin class and `simpleiot_v1/sys` for the System class. -/
theorem outbound_topic_by_class (s : SimpleIOT) (op : CStr) (payload : JsonDocument) :
    ((schemaTopic "simpleiot_v1/app".toList op s._project s._model s._serialNumber).length ≤ 199 →
      publishedTopics (s._sendRawMessage op payload SimpleIOTMessageType.MESSAGE_APP).2 =
        [schemaTopic "simpleiot_v1/app".toList op s._project s._model s._serialNumber]) ∧
    ((schemaTopic "simpleiot_v1/adm".toList op s._project s._model s._serialNumber).length ≤ 199 →
      publishedTopics (s._sendRawMessage op payload SimpleIOTMessageType.MESSAGE_ADM).2 =
        [schemaTopic "simpleiot_v1/adm".toList op s._project s._model s._serialNumber]) ∧
    ((schemaTopic "simpleiot_v1/sys".toList op s._project s._model s._serialNumber).length ≤ 199 →
      publishedTopics (s._sendRawMessage op payload SimpleIOTMessageType.MESSAGE_SYS).2 =
        [schemaTopic "simpleiot_v1/sys".toList op s._project s._model s._serialNumber]) :=
  ⟨sendRawMessage_topic s op payload SimpleIOTMessageType.MESSAGE_APP,
    sendRawMessage_topic s op payload SimpleIOTMessageType.MESSAGE_ADM,
    sendRawMessage_topic s op payload SimpleIOTMessageType.MESSAGE_SYS⟩

/-- C6, amended, on the device Sunshine / M1 / TIE-DEMO01 with operation "heartbeat". -/
theorem outbound_topic_by_class_witness :
    publishedTopics (demoDevice._sendRawMessage "heartbeat".toList []
        SimpleIOTMessageType.MESSAGE_APP).2 =
      [schemaTopic "simpleiot_v1/app".toList "heartbeat".toList demoDevice._project
        demoDevice._model demoDevice._serialNumber] ∧
    publishedTopics (demoDevice._sendRawMessage "heartbeat".toList []
        SimpleIOTMessageType.MESSAGE_ADM).2 =
      [schemaTopic "simpleiot_v1/adm".toList "heartbeat".toList demoDevice._project
        demoDevice._model demoDevice._serialNumber] ∧
    publishedTopics (demoDevice._sendRawMessage "heartbeat".toList []
        SimpleIOTMessageType.MESSAGE_SYS).2 =
      [schemaTopic "simpleiot_v1/sys".toList "heartbeat".toList demoDevice._project
        demoDevice._model demoDevice._serialNumber] :=
  ⟨(outbound_topic_by_class demoDevice "heartbeat".toList []).1 (by decide),
    (outbound_topic_by_class demoDevice "heartbeat".toList []).2.1 (by decide),
    (outbound_topic_by_class demoDevice "heartbeat".toList []).2.2 (by decide)⟩

end SimpleIOT

namespace SimpleIOT

/-! ## C7: the reported percentage -/

/-- C7, evaluated: the 256-byte download in chunks of 100, 100 and 56 reports 39, 78 and
100 percent; but 29 bytes of a 100-byte download are reported as 28 percent, where
`floor(29 * 100 / 100)` is 29: the binary32 quotient `29.0f / 100.0f` lies just below 0.29
and the product with 100.0 is truncated. -/
theorem percent_truncates_float_quotient :
    progressReports (ingest (demoDevice.startDownload true 256) [100, 100, 56]).events =
      [(100, 256, 39), (200, 256, 78), (256, 256, 100)] ∧
    progressReports (ingest (demoDevice.startDownload true 100) [29]).events =
      [(29, 100, 28)] ∧
    ((29 : Int) * 100 / 100 = 29) := by
  decide

/-! ## C8: unknown total length -/

/-- C8, evaluated: when `client.getSize()` is -1 and a progress handler is registered, a
chunk of 100 bytes is reported to the handler, with total -1 and percentage -10000. -/
theorem unknown_length_still_reports :
    (performOTA demoDevice true 200 (-1) [⟨100, 100⟩]).events =
      [Event.updateBegin, Event.updateWrite 100, Event.otaCallback 100 (-1) (-10000),
        Event.delay 1] ∧
    progressReports (performOTA demoDevice true 200 (-1) [⟨100, 100⟩]).events =
      [(100, -1, -10000)] := by
  decide

/-! ## C9: the current length and the total length -/

theorem streamBytes_cons (p : StreamPoll) (stream : List StreamPoll) :
    streamBytes (p :: stream) = p.bytes + streamBytes stream := by
  simp [streamBytes]

theorem streamBytes_take_le (stream : List StreamPoll) (k : Nat) :
    streamBytes (stream.take k) ≤ streamBytes stream := by
  induction stream generalizing k with
  | nil => simp
  | cons p rest ih =>
    cases k with
    | zero => simp [streamBytes]
    | succ k =>
      rw [List.take_succ_cons, streamBytes_cons, streamBytes_cons]
      have := ih k
      omega

theorem downloadLoop_current_le (T : Int) (hT32 : T < 2 ^ 31) (stream : List StreamPoll)
    (s : SimpleIOT) (len : Int) (htotal : s._fwUpdateTotalLength = T)
    (hcur : 0 ≤ s._fwUpdateCurrentLength)
    (hbytes : s._fwUpdateCurrentLength + (streamBytes stream : Int) ≤ T) :
    (downloadLoop s len stream).state._fwUpdateTotalLength = T ∧
    (downloadLoop s len stream).state._fwUpdateCurrentLength ≤ T := by
  induction stream generalizing s len with
  | nil =>
    have h0 : (0 : Int) ≤ (streamBytes [] : Int) := Int.natCast_nonneg _
    simp only [downloadLoop]
    exact ⟨htotal, by omega⟩
  | cons p rest ih =>
    have hr0 : (0 : Int) ≤ (streamBytes rest : Int) := Int.natCast_nonneg _
    have hb0 : (0 : Int) ≤ (p.bytes : Int) := Int.natCast_nonneg _
    rw [streamBytes_cons] at hbytes
    push_cast at hbytes
    unfold downloadLoop
    by_cases hlen : 0 < len ∨ len = -1
    · rw [if_pos hlen]
      by_cases hav : p.available ≠ 0
      · rw [if_pos hav]
        have hpb : p.bytes = min p.delivered (min p.available 128) := by
          simp [StreamPoll.bytes, hav]
        rw [hpb] at hbytes hb0
        have hw : wrapInt32 (s._fwUpdateCurrentLength +
            ((min p.delivered (min p.available 128) : Nat) : Int)) =
            s._fwUpdateCurrentLength + ((min p.delivered (min p.available 128) : Nat) : Int) :=
          wrapInt32_of_range _ (by omega) (by omega)
        have hst := updateFirmware_state s (min p.delivered (min p.available 128))
        rw [hw] at hst
        simp only
        by_cases hrs : (s._updateFirmware (min p.delivered (min p.available 128))).restarted = true
        · rw [if_pos hrs, hst]
          simp only
          exact ⟨htotal, by omega⟩
        · rw [if_neg hrs]
          simp only
          exact ih (s._updateFirmware (min p.delivered (min p.available 128))).state _
            (by rw [hst]; exact htotal) (by rw [hst]; simp only; omega)
            (by rw [hst]; simp only; omega)
      · rw [if_neg hav]
        simp only
        exact ih s len htotal hcur (by omega)
    · rw [if_neg hlen]
      show s._fwUpdateTotalLength = T ∧ s._fwUpdateCurrentLength ≤ T
      exact ⟨htotal, by omega⟩

/-- C9, as stated, fails: with a declared length of 100 bytes and a connection that has 128
bytes available, the first pass of the loop reads all 128 bytes and the current length
exceeds the total length. -/
theorem current_exceeds_total_on_long_stream :
    (performOTA demoDevice true 200 100 [⟨128, 128⟩]).state._fwUpdateTotalLength = 100 ∧
    (performOTA demoDevice true 200 100 [⟨128, 128⟩]).state._fwUpdateCurrentLength = 128 ∧
    ¬ ((performOTA demoDevice true 200 100 [⟨128, 128⟩]).state._fwUpdateCurrentLength ≤
      (performOTA demoDevice true 200 100 [⟨128, 128⟩]).state._fwUpdateTotalLength) := by
  decide

/-- C9, amended: during `performOTA` with a known total length T (a 32-bit `int`), the
current length is at most the total length after every pass of the download loop, for
every connection that delivers at most T bytes in all. -/
theorem current_le_total_within_declared_length (s : SimpleIOT) (cb : Bool) (resp T : Int)
    (stream : List StreamPoll) (hT32 : T < 2 ^ 31)
    (hbytes : (streamBytes stream : Int) ≤ T) (k : Nat) :
    (performOTA s cb resp T (stream.take k)).state._fwUpdateCurrentLength ≤
      (performOTA s cb resp T (stream.take k)).state._fwUpdateTotalLength := by
  have hk : (streamBytes (stream.take k) : Int) ≤ T := by
    have := streamBytes_take_le stream k
    omega
  unfold performOTA
  by_cases hresp : 0 < resp
  · rw [if_pos hresp]
    simp only
    obtain ⟨h1, h2⟩ := downloadLoop_current_le T hT32 (stream.take k) (s.startDownload cb T) T rfl
      (le_refl _) (by simp only [startDownload]; omega)
    rw [h1]
    exact h2
  · rw [if_neg hresp]
    simp [startDownload]

/-- C9, amended, on a 256-byte download delivered in passes of 100, 100 and 56 bytes. -/
theorem current_le_total_within_declared_length_witness :
    (performOTA demoDevice true 200 256 ([⟨100, 100⟩, ⟨100, 100⟩, ⟨56, 56⟩].take 2)).state._fwUpdateCurrentLength ≤
      (performOTA demoDevice true 200 256 ([⟨100, 100⟩, ⟨100, 100⟩, ⟨56, 56⟩].take 2)).state._fwUpdateTotalLength :=
  current_le_total_within_declared_length demoDevice true 200 256
    [⟨100, 100⟩, ⟨100, 100⟩, ⟨56, 56⟩] (by decide) (by decide) 2

/-! ## C10: the update trigger -/

/-- C10: for every inbound message whose topic starts with the update-trigger prefix, with
a trigger handler registered, `_invokeCallback` calls the trigger handler once, with the
members `version` and `url` of the envelope and update type `UPDATE_FIRMWARE`, and does
nothing else: no other handler is called, nothing is written to flash or published, and
the object, with its update progress state, is unchanged. -/
theorem trigger_surfaces_version_and_url (s : SimpleIOT) (topic : CStr) (jdoc : JsonDocument)
    (hstarts : "simpleiot_v1/adm/update".toList <+: topic)
    (hcb : s._triggerUpdateCallback = true) :
    s._invokeCallback topic jdoc =
      some (s, [Event.triggerUpdateCallback
        (arduinoString (jdoc.getMember "version".toList).asCString)
        (arduinoString (jdoc.getMember "url".toList).asCString)
        SimpleIOTUpdateType.UPDATE_FIRMWARE]) := by
  have hclass : classify topic = MessageClass.updateTrigger := by
    rw [classify_eq_classifyRef]
    unfold classifyRef
    rw [if_pos hstarts]
  unfold _invokeCallback
  rw [hclass]
  simp [hcb]

/-- C10 on a trigger for version 1.0.1 addressed to the device of the examples. -/
theorem trigger_surfaces_version_and_url_witness :
    demoDevice._invokeCallback "simpleiot_v1/adm/update/Sunshine/M1/TIE-DEMO01".toList
        [("device".toList, JsonVariant.str "TIE-DEMO01".toList),
         ("version".toList, JsonVariant.str "1.0.1".toList),
         ("url".toList, JsonVariant.str "https://example.com/fw.bin".toList)] =
      some (demoDevice, [Event.triggerUpdateCallback "1.0.1".toList
        "https://example.com/fw.bin".toList SimpleIOTUpdateType.UPDATE_FIRMWARE]) :=
  trigger_surfaces_version_and_url demoDevice
    "simpleiot_v1/adm/update/Sunshine/M1/TIE-DEMO01".toList
    [("device".toList, JsonVariant.str "TIE-DEMO01".toList),
     ("version".toList, JsonVariant.str "1.0.1".toList),
     ("url".toList, JsonVariant.str "https://example.com/fw.bin".toList)]
    (by decide) (by decide)

end SimpleIOT

/-! ## C11: payloads that fail to decode -/

namespace SimpleIOT

/-- C11, as stated, fails: a payload that `deserializeJson` rejects as invalid input, leaving
the document empty, still reaches a handler. On the update-trigger topic the trigger handler
is called with empty version and URL, and on a monitor topic the data handler is called
with empty name and value. -/
theorem undecodable_payload_reaches_handlers :
    demoDevice._invokeCallbackOnPayload "simpleiot_v1/adm/update/Sunshine/M1/TIE-DEMO01".toList
        ⟨DeserializationError.InvalidInput, []⟩ =
      some (demoDevice, [Event.triggerUpdateCallback [] [] SimpleIOTUpdateType.UPDATE_FIRMWARE]) ∧
    demoDevice._invokeCallbackOnPayload "simpleiot_v1/app/monitor/Sunshine/M1/TIE-DEMO01/x".toList
        ⟨DeserializationError.InvalidInput, []⟩ =
      some (demoDevice, [Event.dataCallback [] [] SimpleIOTType.IOT_STRING]) := by
  decide

/-- C11, amended: the code returned by the decoder plays no part in the dispatch. For every
topic and every error code, a payload whose decoding leaves the document empty is dispatched
by its topic alone: the trigger handler is called with empty version and URL on an
update-trigger topic, nothing is done on any other admin topic, the diagnostic handler (if
registered) is called with empty id and data on a diagnostic topic, and the data handler (if
registered) is called with empty name and value and type `IOT_STRING` on every other
topic. -/
theorem undecodable_payload_dispatched_by_topic (s : SimpleIOT) (topic : CStr)
    (error : DeserializationError) :
    s._invokeCallbackOnPayload topic ⟨error, []⟩ =
      match classifyRef topic with
      | MessageClass.updateTrigger =>
        if s._triggerUpdateCallback then
          some (s, [Event.triggerUpdateCallback [] [] SimpleIOTUpdateType.UPDATE_FIRMWARE])
        else none
      | MessageClass.admin => some (s, [])
      | MessageClass.diagnostic =>
        some (s, if s._diagCallback then [Event.diagCallback [] [] JsonVariant.null] else [])
      | MessageClass.application =>
        some (s, if s._dataCallback then
          [Event.dataCallback [] [] SimpleIOTType.IOT_STRING] else []) := by
  unfold _invokeCallbackOnPayload _invokeCallback
  rw [classify_eq_classifyRef]
  cases classifyRef topic <;>
    simp [JsonDocument.getMember, JsonVariant.asCString, JsonVariant.isNull, arduinoString,
      _handleAdminRequest, _handleDiagRequest]
  · cases s._dataCallback <;> simp

end SimpleIOT

/-! ## The messages of `_doUpdate` -/

namespace SimpleIOT

theorem updateEnvelope_members (s : SimpleIOT) (op : CStr) (force : Bool) :
    updateEnvelope s op force =
      [("project".toList, JsonVariant.str s._project),
       ("serial".toList, JsonVariant.str s._serialNumber),
       ("version".toList, JsonVariant.str s._fwVersion),
       ("op".toList, JsonVariant.str op)] ++
      (if force then [("force".toList, JsonVariant.bool true)] else []) := by
  cases force <;> simp [updateEnvelope, JsonDocument.assign]

/-- When the topic and the serialised document fit their buffers, `_doUpdate(op, force)`
publishes one message, on the admin topic of the operation, holding the document. -/
theorem doUpdate_events (s : SimpleIOT) (op : CStr) (force : Bool)
    (htopic : (schemaTopic "simpleiot_v1/adm".toList op s._project s._model
      s._serialNumber).length ≤ 199)
    (hfit : (writeObject (updateEnvelope s op force)).length < SimpleIOTInternalBufferSize) :
    s._doUpdate op force =
      [Event.publish s._withGateway
        (schemaTopic "simpleiot_v1/adm".toList op s._project s._model s._serialNumber)
        (writeObject (updateEnvelope s op force))] := by
  have h1 : snprintf INTERNAL_TOPIC_BUFFER_SIZE
      (schemaTopic "simpleiot_v1/adm".toList op s._project s._model s._serialNumber) =
      schemaTopic "simpleiot_v1/adm".toList op s._project s._model s._serialNumber := by
    apply snprintf_of_fits
    have : INTERNAL_TOPIC_BUFFER_SIZE = 200 := rfl
    omega
  have h2 := serializeJson_of_fits _ _ hfit
  have h3 : topicText s op SimpleIOTMessageType.MESSAGE_ADM =
      schemaTopic "simpleiot_v1/adm".toList op s._project s._model s._serialNumber := rfl
  simp only [_doUpdate, _sendRawMessage, _publish, h3, h1, h2]

end SimpleIOT

/-! ## C12: the "check" message -/

namespace SimpleIOT

set_option maxRecDepth 100000 in
/-- C12, as stated, fails. With force false the envelope of `checkForUpdate` has no `force`
member at all, rather than a flag carrying the value false; and for an identity whose
project name has 200 characters the topic published is cut at 199 characters and is not
the schema topic. -/
theorem check_without_force_has_no_flag :
    (demoDevice.checkForUpdate false).2 =
      [Event.publish false "simpleiot_v1/adm/check/Sunshine/M1/TIE-DEMO01".toList
        "\x7b\"project\":\"Sunshine\",\"serial\":\"TIE-DEMO01\",\"version\":\"1.0.0\",\"op\":\"check\"\x7d".toList] ∧
    (updateEnvelope demoDevice "check".toList false).getMember "force".toList =
      JsonVariant.null ∧
    publishedTopics (longNameDevice.checkForUpdate true).2 ≠
      [schemaTopic "simpleiot_v1/adm".toList "check".toList longNameDevice._project
        longNameDevice._model longNameDevice._serialNumber] := by
  decide

/-- C12, amended: for every identity whose topic has at most 199 characters and whose
envelope fits the payload buffer, and for both values of force, `checkForUpdate(force)`
publishes exactly one message, on `simpleiot_v1/adm/check/<project>/<model>/<serial>`; its
envelope holds project, serial, version and op = "check", followed by force = true exactly
when force holds (no `force` member otherwise); and the object, with its update progress
state, is unchanged. -/
theorem check_publishes_force_only_when_set (s : SimpleIOT) (force : Bool)
    (htopic : ("simpleiot_v1/adm/check/".toList ++ s._project ++ ['/'] ++ s._model ++ ['/']
      ++ s._serialNumber).length ≤ 199)
    (hfit : (writeObject
      ([("project".toList, JsonVariant.str s._project),
        ("serial".toList, JsonVariant.str s._serialNumber),
        ("version".toList, JsonVariant.str s._fwVersion),
        ("op".toList, JsonVariant.str "check".toList)] ++
       (if force then [("force".toList, JsonVariant.bool true)] else []))).length
      < SimpleIOTInternalBufferSize) :
    s.checkForUpdate force =
      (s, [Event.publish s._withGateway
        ("simpleiot_v1/adm/check/".toList ++ s._project ++ ['/'] ++ s._model ++ ['/']
          ++ s._serialNumber)
        (writeObject
          ([("project".toList, JsonVariant.str s._project),
            ("serial".toList, JsonVariant.str s._serialNumber),
            ("version".toList, JsonVariant.str s._fwVersion),
            ("op".toList, JsonVariant.str "check".toList)] ++
           (if force then [("force".toList, JsonVariant.bool true)] else [])))]) := by
  have hschema : schemaTopic "simpleiot_v1/adm".toList "check".toList s._project s._model
      s._serialNumber =
      "simpleiot_v1/adm/check/".toList ++ s._project ++ ['/'] ++ s._model ++ ['/']
        ++ s._serialNumber := by
    simp [schemaTopic]
  rw [← updateEnvelope_members] at hfit ⊢
  rw [← hschema] at htopic ⊢
  unfold checkForUpdate
  rw [doUpdate_events s "check".toList force htopic hfit]

/-- C12, amended, on the device Sunshine / M1 / TIE-DEMO01 with force set. -/
theorem check_publishes_force_only_when_set_witness :
    demoDevice.checkForUpdate true =
      (demoDevice, [Event.publish false "simpleiot_v1/adm/check/Sunshine/M1/TIE-DEMO01".toList
        "\x7b\"project\":\"Sunshine\",\"serial\":\"TIE-DEMO01\",\"version\":\"1.0.0\",\"op\":\"check\",\"force\":true\x7d".toList]) :=
  (check_publishes_force_only_when_set demoDevice true (by decide) (by decide)).trans
    (by decide)

end SimpleIOT

/-! ## C13: the overloads of `set` -/

theorem toDigitsCore_length_le (fuel : Nat) (n k : Nat) (ds : List Char) (hk : 0 < k)
    (hn : n < 10 ^ k) : (Nat.toDigitsCore 10 fuel n ds).length ≤ k + ds.length := by
  induction fuel generalizing n k ds with
  | zero => simp [Nat.toDigitsCore]
  | succ fuel ih =>
    unfold Nat.toDigitsCore
    simp only
    split_ifs with h0
    · simp only [List.length_cons]
      omega
    · have hk2 : 1 < k := by
        by_contra hcon
        have hk1 : k = 1 := by omega
        rw [hk1] at hn
        apply h0
        omega
      have hdiv : n / 10 < 10 ^ (k - 1) := by
        have hpow : 10 ^ k = 10 * 10 ^ (k - 1) := by
          rw [← pow_succ']
          congr 1
          omega
        rw [hpow] at hn
        exact Nat.div_lt_of_lt_mul hn
      have := ih (n / 10) (k - 1) (Nat.digitChar (n % 10) :: ds) (by omega) hdiv
      simp only [List.length_cons] at this
      omega

/-- The `%d` rendering of a 32-bit `int` has at most eleven characters. -/
theorem formatD_length_le (n : Int) (hlo : -2 ^ 31 ≤ n) (hhi : n < 2 ^ 31) :
    (formatD n).length ≤ 11 := by
  have e1 : (2 : Int) ^ 31 = 2147483648 := by norm_num
  rw [e1] at hlo hhi
  have habs : n.natAbs < 10 ^ 10 := by
    have : (10 : Nat) ^ 10 = 10000000000 := by norm_num
    omega
  have hdig : (Nat.toDigits 10 n.natAbs).length ≤ 10 := by
    have := toDigitsCore_length_le (n.natAbs + 1) n.natAbs 10 [] (by norm_num) habs
    simpa [Nat.toDigits] using this
  unfold formatD
  split_ifs
  · simp only [List.length_cons]
    omega
  · omega

theorem snprintf_formatD (n : Int) (hlo : -2 ^ 31 ≤ n) (hhi : n < 2 ^ 31) :
    snprintf INTERNAL_STATIC_BUFFER_SIZE (formatD n) = formatD n := by
  apply snprintf_of_fits
  have := formatD_length_le n hlo hhi
  have h100 : INTERNAL_STATIC_BUFFER_SIZE = 100 := rfl
  omega

namespace SimpleIOT

/-- C13: the integer and boolean overloads of `set` are the string overload applied to the
rendered value. For every name, every 32-bit `int` n and every boolean b, `set(name, n)`
returns and publishes what `set(name, s)` does for the `%d` rendering s of n, and
`set(name, b)` what `set(name, "true")` or `set(name, "false")` does; the overloads that
take a latitude and a longitude relate in the same way to the string overload with
coordinates. -/
theorem set_overloads_erase_to_string (s : SimpleIOT) (name : CStr) (n : Int) (b : Bool)
    (lat_str lng_str : CStr) (hlo : -2 ^ 31 ≤ n) (hhi : n < 2 ^ 31) :
    s.setInt name n = s.set name (formatD n) ∧
    s.setBool name b = s.set name (if b then "true".toList else "false".toList) ∧
    s.setIntGeo name n lat_str lng_str = s.setGeo name (formatD n) lat_str lng_str ∧
    s.setBoolGeo name b lat_str lng_str =
      s.setGeo name (if b then "true".toList else "false".toList) lat_str lng_str := by
  refine ⟨?_, rfl, ?_, rfl⟩
  · unfold setInt set
    rw [snprintf_formatD n hlo hhi]
  · unfold setIntGeo setGeo
    rw [snprintf_formatD n hlo hhi]

/-- C13 on the scenario of the specification, `set("oil_pressure", 20)`, and on a boolean:
the integer 20 is published as the string "20". -/
theorem set_overloads_erase_to_string_witness :
    demoDevice.setInt "oil_pressure".toList 20 =
      demoDevice.set "oil_pressure".toList "20".toList ∧
    demoDevice.setBool "oil_pressure".toList true =
      demoDevice.set "oil_pressure".toList "true".toList ∧
    demoDevice.setIntGeo "oil_pressure".toList 20 "47.6100".toList "-122.3300".toList =
      demoDevice.setGeo "oil_pressure".toList "20".toList "47.6100".toList
        "-122.3300".toList ∧
    demoDevice.setBoolGeo "oil_pressure".toList true "47.6100".toList "-122.3300".toList =
      demoDevice.setGeo "oil_pressure".toList "true".toList "47.6100".toList
        "-122.3300".toList :=
  set_overloads_erase_to_string demoDevice "oil_pressure".toList 20 true "47.6100".toList
    "-122.3300".toList (by decide) (by decide)

end SimpleIOT

/-! ## C14: data messages without a recognised type -/

theorem classify_application (topic : CStr) (hadm : ¬ "simpleiot_v1/adm".toList <+: topic)
    (hdiag : ¬ "simpleiot_v1/sys/diag".toList <+: topic) :
    classify topic = MessageClass.application := by
  have hup : "simpleiot_v1/adm/update".toList <+: topic → "simpleiot_v1/adm".toList <+: topic :=
    fun h => List.IsPrefix.trans (by decide) h
  rw [classify_eq_classifyRef]
  unfold classifyRef
  rw [if_neg (fun h => hadm (hup h)), if_neg hadm, if_neg hdiag]

namespace SimpleIOT

/-- C14: for every inbound application message (a topic that starts neither with the admin
nor with the diagnostic prefix), with a data handler registered, whose envelope has no
`type` member or a `type` member that is a string outside the vocabulary string, str,
integer, int, float, double, boolean, bool, the data handler is called once with type
`IOT_STRING` and with the members `name` and `value` as strings (the empty string for a
member that is absent or not a string). -/
theorem data_message_defaults_to_string (s : SimpleIOT) (topic : CStr) (jdoc : JsonDocument)
    (hadm : ¬ "simpleiot_v1/adm".toList <+: topic)
    (hdiag : ¬ "simpleiot_v1/sys/diag".toList <+: topic)
    (hcb : s._dataCallback = true)
    (htype : jdoc.getMember "type".toList = JsonVariant.null ∨
      ∃ t, jdoc.getMember "type".toList = JsonVariant.str t ∧
        t ∉ ["string".toList, "str".toList, "integer".toList, "int".toList, "float".toList,
          "double".toList, "boolean".toList, "bool".toList]) :
    s._invokeCallback topic jdoc =
      some (s, [Event.dataCallback
        (arduinoString (jdoc.getMember "name".toList).asCString)
        (arduinoString (jdoc.getMember "value".toList).asCString)
        SimpleIOTType.IOT_STRING]) := by
  unfold _invokeCallback
  rw [classify_application topic hadm hdiag]
  rcases htype with hnull | ⟨t, ht, _⟩
  · simp only [hcb, hnull, if_true]
    rfl
  · simp only [hcb, ht, if_true, typeValueOf_eq_string]
    rfl

/-- C14 on a message for oil_pressure without a `type` member. -/
theorem data_message_defaults_to_string_witness :
    demoDevice._invokeCallback "simpleiot_v1/app/monitor/Sunshine/M1/TIE-DEMO01/x".toList
        [("name".toList, JsonVariant.str "oil_pressure".toList),
         ("value".toList, JsonVariant.str "20".toList)] =
      some (demoDevice, [Event.dataCallback "oil_pressure".toList "20".toList
        SimpleIOTType.IOT_STRING]) :=
  data_message_defaults_to_string demoDevice
    "simpleiot_v1/app/monitor/Sunshine/M1/TIE-DEMO01/x".toList
    [("name".toList, JsonVariant.str "oil_pressure".toList),
     ("value".toList, JsonVariant.str "20".toList)]
    (by decide) (by decide) (by decide) (Or.inl (by decide))

end SimpleIOT

/-! ## C15: the subscribe topics of `config` -/

theorem monitorTopicBuffer_eq (project model serialNumber : CStr) :
    monitorTopicBuffer project model serialNumber =
      "simpleiot_v1/app/monitor/".toList ++ project.take 25 ++ ['/'] ++ model.take 25 ++ ['/']
        ++ serialNumber.take 25 ++ "/#".toList := by
  have hpre : precision25 SIMPLEIOT_APP_MONITOR_PREFIX = "simpleiot_v1/app/monitor".toList := by
    decide
  have h1 := List.length_take_le 25 project
  have h2 := List.length_take_le 25 model
  have h3 := List.length_take_le 25 serialNumber
  unfold monitorTopicBuffer
  rw [hpre, snprintf_of_fits]
  · simp [precision25]
  · have h200 : INTERNAL_TOPIC_BUFFER_SIZE = 200 := rfl
    simp only [precision25, List.length_append, List.length_cons, List.length_nil]
    have e1 : "simpleiot_v1/app/monitor".toList.length = 24 := by decide
    have e2 : "/#".toList.length = 2 := by decide
    omega

theorem triggerUpdateTopicBuffer_eq (project model serialNumber : CStr) :
    triggerUpdateTopicBuffer project model serialNumber =
      "simpleiot_v1/adm/update/".toList ++ project.take 25 ++ ['/'] ++ model.take 25 ++ ['/']
        ++ serialNumber.take 25 := by
  have hpre : precision25 UPDATE_TOPIC_PREFIX = "simpleiot_v1/adm/update".toList := by
    decide
  have h1 := List.length_take_le 25 project
  have h2 := List.length_take_le 25 model
  have h3 := List.length_take_le 25 serialNumber
  unfold triggerUpdateTopicBuffer
  rw [hpre, snprintf_of_fits]
  · simp [precision25]
  · have h200 : INTERNAL_TOPIC_BUFFER_SIZE = 200 := rfl
    simp only [precision25, List.length_append, List.length_cons, List.length_nil]
    have e1 : "simpleiot_v1/adm/update".toList.length = 23 := by decide
    omega

namespace SimpleIOT

/-- C15: for every identity, `config` formats the subscribe topics with each identity field
cut to its first 25 characters: the monitor topic is
`simpleiot_v1/app/monitor/<project>/<model>/<serial>/#` and the update-trigger topic is
`simpleiot_v1/adm/update/<project>/<model>/<serial>`. When every field has at most 25
characters both are the schema topics of the full fields, and the update-trigger topic is
the topic on which the configured object publishes an Admin message of operation
"update". -/
theorem config_subscribe_topics (s : SimpleIOT) (project model serialNumber fwVersion : CStr)
    (onData onTriggerUpdate onDiag : Bool) (payload : JsonDocument) :
    monitorTopicBuffer project model serialNumber =
      "simpleiot_v1/app/monitor/".toList ++ project.take 25 ++ ['/'] ++ model.take 25 ++ ['/']
        ++ serialNumber.take 25 ++ "/#".toList ∧
    triggerUpdateTopicBuffer project model serialNumber =
      "simpleiot_v1/adm/update/".toList ++ project.take 25 ++ ['/'] ++ model.take 25 ++ ['/']
        ++ serialNumber.take 25 ∧
    (project.length ≤ 25 → model.length ≤ 25 → serialNumber.length ≤ 25 →
      monitorTopicBuffer project model serialNumber =
        "simpleiot_v1/app/monitor/".toList ++ project ++ ['/'] ++ model ++ ['/']
          ++ serialNumber ++ "/#".toList ∧
      triggerUpdateTopicBuffer project model serialNumber =
        "simpleiot_v1/adm/update/".toList ++ project ++ ['/'] ++ model ++ ['/']
          ++ serialNumber ∧
      publishedTopics
        ((s.config project model serialNumber fwVersion onData onTriggerUpdate
          onDiag)._sendRawMessage "update".toList payload SimpleIOTMessageType.MESSAGE_ADM).2 =
        [triggerUpdateTopicBuffer project model serialNumber]) := by
  refine ⟨monitorTopicBuffer_eq _ _ _, triggerUpdateTopicBuffer_eq _ _ _, ?_⟩
  intro hp hm hs
  have tp : project.take 25 = project := List.take_of_length_le hp
  have tm : model.take 25 = model := List.take_of_length_le hm
  have ts : serialNumber.take 25 = serialNumber := List.take_of_length_le hs
  have hmon := monitorTopicBuffer_eq project model serialNumber
  have htrig := triggerUpdateTopicBuffer_eq project model serialNumber
  rw [tp, tm, ts] at hmon htrig
  refine ⟨hmon, htrig, ?_⟩
  have hschema : schemaTopic (topicPrefix SimpleIOTMessageType.MESSAGE_ADM) "update".toList
      project model serialNumber =
      "simpleiot_v1/adm/update/".toList ++ project ++ ['/'] ++ model ++ ['/']
        ++ serialNumber := by
    simp [schemaTopic, topicPrefix, SIMPLEIOT_ADM_TOPIC_PREFIX]
  have hfit : (schemaTopic (topicPrefix SimpleIOTMessageType.MESSAGE_ADM) "update".toList
      (s.config project model serialNumber fwVersion onData onTriggerUpdate onDiag)._project
      (s.config project model serialNumber fwVersion onData onTriggerUpdate onDiag)._model
      (s.config project model serialNumber fwVersion onData onTriggerUpdate
        onDiag)._serialNumber).length ≤ 199 := by
    show (schemaTopic (topicPrefix SimpleIOTMessageType.MESSAGE_ADM) "update".toList
      project model serialNumber).length ≤ 199
    rw [hschema]
    simp only [List.length_append, List.length_cons, List.length_nil]
    have e1 : "simpleiot_v1/adm/update/".toList.length = 24 := by decide
    omega
  rw [sendRawMessage_topic _ _ _ _ hfit, htrig, ← hschema]
  rfl

/-- C15 on the identity Sunshine / M1 / TIE-DEMO01. -/
theorem config_subscribe_topics_witness :
    monitorTopicBuffer "Sunshine".toList "M1".toList "TIE-DEMO01".toList =
      "simpleiot_v1/app/monitor/Sunshine/M1/TIE-DEMO01/#".toList ∧
    triggerUpdateTopicBuffer "Sunshine".toList "M1".toList "TIE-DEMO01".toList =
      "simpleiot_v1/adm/update/Sunshine/M1/TIE-DEMO01".toList ∧
    publishedTopics
      ((demoDevice.config "Sunshine".toList "M1".toList "TIE-DEMO01".toList "1.0.0".toList
        true true true)._sendRawMessage "update".toList [] SimpleIOTMessageType.MESSAGE_ADM).2 =
      [triggerUpdateTopicBuffer "Sunshine".toList "M1".toList "TIE-DEMO01".toList] :=
  (config_subscribe_topics demoDevice "Sunshine".toList "M1".toList "TIE-DEMO01".toList
    "1.0.0".toList true true true []).2.2 (by decide) (by decide) (by decide)

end SimpleIOT

/-! ## C16: a second fetch -/

namespace SimpleIOT

/-- C16, as stated, fails: after 100 of 256 bytes have been ingested (39 percent reported),
a second `performOTA`, whose fetch reports 512 bytes and delivers nothing yet, is not
refused: it calls `Update.begin` again and resets the progress state to total 512,
current 0, percent 0. -/
theorem second_fetch_resets_progress :
    (performOTA demoDevice true 200 256 [⟨100, 100⟩]).state._fwUpdateTotalLength = 256 ∧
    (performOTA demoDevice true 200 256 [⟨100, 100⟩]).state._fwUpdateCurrentLength = 100 ∧
    (performOTA demoDevice true 200 256 [⟨100, 100⟩]).state._fwUpdatePercent = 39 ∧
    (performOTA (performOTA demoDevice true 200 256 [⟨100, 100⟩]).state true 200 512 []).events =
      [Event.updateBegin] ∧
    (performOTA (performOTA demoDevice true 200 256 [⟨100, 100⟩]).state true 200 512
      []).state._fwUpdateTotalLength = 512 ∧
    (performOTA (performOTA demoDevice true 200 256 [⟨100, 100⟩]).state true 200 512
      []).state._fwUpdateCurrentLength = 0 ∧
    (performOTA (performOTA demoDevice true 200 256 [⟨100, 100⟩]).state true 200 512
      []).state._fwUpdatePercent = 0 := by
  decide

/-- C16, amended: `performOTA` has no in-progress check. Whatever progress state and
progress handler it finds, in particular those of a download in progress, it runs exactly
as it does on an object whose progress state is zero: the current length and the last
reported percentage start again from 0, and the total length is the length the new fetch
reports (0 when the request fails). -/
theorem fetch_ignores_progress_in_flight (s : SimpleIOT) (total current percent : Int)
    (handler cb : Bool) (resp size : Int) (stream : List StreamPoll) :
    performOTA { s with
        _otaCallback := handler
        _fwUpdateTotalLength := total
        _fwUpdateCurrentLength := current
        _fwUpdatePercent := percent } cb resp size stream =
      performOTA { s with
        _otaCallback := false
        _fwUpdateTotalLength := 0
        _fwUpdateCurrentLength := 0
        _fwUpdatePercent := 0 } cb resp size stream ∧
    (performOTA { s with
        _otaCallback := handler
        _fwUpdateTotalLength := total
        _fwUpdateCurrentLength := current
        _fwUpdatePercent := percent } cb resp size []).state =
      { s with
        _otaCallback := cb
        _fwUpdateTotalLength := if 0 < resp then size else 0
        _fwUpdateCurrentLength := 0
        _fwUpdatePercent := 0 } := by
  constructor
  · unfold performOTA startDownload
    rfl
  · unfold performOTA startDownload
    split_ifs <;> rfl

end SimpleIOT

/-! ## C17: the "installed" message -/

namespace SimpleIOT

set_option maxRecDepth 100000 in
/-- C17, as stated, fails for an identity that does not fit the topic buffer: for the device
whose project name has 200 characters, `updateInstalled()` publishes on a topic of 199
characters, cut inside the project name, not on
`simpleiot_v1/adm/installed/<project>/<model>/<serial>`. -/
theorem installed_topic_cut_for_long_identity :
    (publishedTopics longNameDevice.updateInstalled.2).map List.length = [199] ∧
    publishedTopics longNameDevice.updateInstalled.2 ≠
      [schemaTopic "simpleiot_v1/adm".toList "installed".toList longNameDevice._project
        longNameDevice._model longNameDevice._serialNumber] := by
  decide

/-- C17, amended: for every object whose topic
`simpleiot_v1/adm/installed/<project>/<model>/<serial>` has at most 199 characters and whose
envelope fits the payload buffer, each call of `updateInstalled()` publishes exactly one
message, on that topic, with the envelope project, serial, version, op = "installed"; the
call leaves the object (identity and update progress state) unchanged, so a second call
publishes the same topic and payload again; and the message is the same whatever the
update progress state is. -/
theorem installed_message_repeatable (s : SimpleIOT)
    (htopic : ("simpleiot_v1/adm/installed/".toList ++ s._project ++ ['/'] ++ s._model ++ ['/']
      ++ s._serialNumber).length ≤ 199)
    (hfit : (writeObject
      [("project".toList, JsonVariant.str s._project),
       ("serial".toList, JsonVariant.str s._serialNumber),
       ("version".toList, JsonVariant.str s._fwVersion),
       ("op".toList, JsonVariant.str "installed".toList)]).length
      < SimpleIOTInternalBufferSize) :
    s.updateInstalled =
      (s, [Event.publish s._withGateway
        ("simpleiot_v1/adm/installed/".toList ++ s._project ++ ['/'] ++ s._model ++ ['/']
          ++ s._serialNumber)
        (writeObject
          [("project".toList, JsonVariant.str s._project),
           ("serial".toList, JsonVariant.str s._serialNumber),
           ("version".toList, JsonVariant.str s._fwVersion),
           ("op".toList, JsonVariant.str "installed".toList)])]) ∧
    s.updateInstalled.1.updateInstalled = s.updateInstalled ∧
    (∀ total current percent : Int,
      (updateInstalled { s with
        _fwUpdateTotalLength := total
        _fwUpdateCurrentLength := current
        _fwUpdatePercent := percent }).2 = s.updateInstalled.2) := by
  have hschema : schemaTopic "simpleiot_v1/adm".toList "installed".toList s._project s._model
      s._serialNumber =
      "simpleiot_v1/adm/installed/".toList ++ s._project ++ ['/'] ++ s._model ++ ['/']
        ++ s._serialNumber := by
    simp [schemaTopic]
  have henv := updateEnvelope_members s "installed".toList false
  simp only [if_false, Bool.false_eq_true, List.append_nil] at henv
  rw [← henv] at hfit ⊢
  rw [← hschema] at htopic ⊢
  refine ⟨?_, rfl, fun _ _ _ => rfl⟩
  unfold updateInstalled
  rw [doUpdate_events s "installed".toList false htopic hfit]

/-- C17, amended, on the device Sunshine / M1 / TIE-DEMO01: the message, and the same
message again from the second call. -/
theorem installed_message_repeatable_witness :
    demoDevice.updateInstalled =
      (demoDevice,
        [Event.publish false "simpleiot_v1/adm/installed/Sunshine/M1/TIE-DEMO01".toList
          "\x7b\"project\":\"Sunshine\",\"serial\":\"TIE-DEMO01\",\"version\":\"1.0.0\",\"op\":\"installed\"\x7d".toList]) ∧
    demoDevice.updateInstalled.1.updateInstalled = demoDevice.updateInstalled :=
  ⟨(installed_message_repeatable demoDevice (by decide) (by decide)).1.trans (by decide),
    (installed_message_repeatable demoDevice (by decide) (by decide)).2.1⟩

end SimpleIOT

/-! ## C18: a download of unknown length -/

theorem writtenChunks_append (xs ys : List Event) :
    writtenChunks (xs ++ ys) = writtenChunks xs ++ writtenChunks ys := by
  induction xs with
  | nil => rfl
  | cons x xs ih => cases x <;> simp [writtenChunks, ih]

namespace SimpleIOT

/-- With the total length -1 and fewer than `2 ^ 31` bytes received, the download keeps
running: every chunk is written and counted, nothing is committed or published. -/
theorem ingest_unknown_length (chunks : List Nat) (s : SimpleIOT)
    (htotal : s._fwUpdateTotalLength = -1) (hcur : 0 ≤ s._fwUpdateCurrentLength)
    (hsum : s._fwUpdateCurrentLength + (chunks.sum : Int) < 2 ^ 31) :
    (ingest s chunks).restarted = false ∧
    (ingest s chunks).state._fwUpdateTotalLength = -1 ∧
    (ingest s chunks).state._fwUpdateCurrentLength =
      s._fwUpdateCurrentLength + (chunks.sum : Int) ∧
    writtenChunks (ingest s chunks).events = chunks ∧
    Event.updateEnd ∉ (ingest s chunks).events ∧
    publishedTopics (ingest s chunks).events = [] := by
  induction chunks generalizing s with
  | nil =>
    simp [ingest_nil, writtenChunks, publishedTopics, htotal]
  | cons c rest ih =>
    have hc0 : (0 : Int) ≤ (c : Int) := Int.natCast_nonneg c
    have hr0 : (0 : Int) ≤ (rest.sum : Int) := Int.natCast_nonneg _
    have hcons : ((c :: rest).sum : Int) = (c : Int) + (rest.sum : Int) := by
      simp [List.sum_cons]
    have hw : wrapInt32 (s._fwUpdateCurrentLength + (c : Int)) =
        s._fwUpdateCurrentLength + (c : Int) :=
      wrapInt32_of_range _ (by omega) (by omega)
    have hne : s._fwUpdateCurrentLength + (c : Int) ≠ s._fwUpdateTotalLength := by omega
    have hrun : (s._updateFirmware c).restarted = false := by
      rw [updateFirmware_restarted, hw]
      simpa using hne
    have hst := updateFirmware_state s c
    rw [hw] at hst
    have hev := updateFirmware_events s c
    rw [hw, if_neg hne] at hev
    obtain ⟨h1, h2, h3, h4, h5, h6⟩ := ih (s._updateFirmware c).state
      (by rw [hst]; exact htotal) (by rw [hst]; simp only; omega)
      (by rw [hst]; simp only; omega)
    rw [ingest_cons_running s c rest hrun]
    refine ⟨h1, h2, ?_, ?_, ?_, ?_⟩
    · simp only
      rw [h3, hst, hcons]
      simp only
      omega
    · simp only
      rw [writtenChunks_append, h4, hev]
      split_ifs <;> simp [writtenChunks]
    · simp only [List.mem_append, not_or]
      refine ⟨?_, h5⟩
      rw [hev]
      split_ifs <;> simp
    · simp only
      rw [publishedTopics_append, h6, hev]
      split_ifs <;> simp [publishedTopics]

end SimpleIOT

namespace SimpleIOT

/-- The chunk that takes the byte count of a download of unknown length to `2 ^ 31` makes the
current length negative. -/
theorem ingest_unknown_length_wraps (s : SimpleIOT) (pre : List Nat) (c : Nat)
    (htotal : s._fwUpdateTotalLength = -1) (hcur : s._fwUpdateCurrentLength = 0)
    (hc : 0 < c) (hbytes : pre.sum + c = 2 ^ 31) :
    (ingest s (pre ++ [c])).state._fwUpdateCurrentLength = -2 ^ 31 := by
  have hc0 : (0 : Int) < (c : Int) := by exact_mod_cast hc
  have hsum : (pre.sum : Int) + (c : Int) = 2 ^ 31 := by exact_mod_cast hbytes
  obtain ⟨hrun, htot1, hcur1, _, _, _⟩ := ingest_unknown_length pre s htotal
    (by rw [hcur]) (by rw [hcur]; omega)
  rw [hcur, zero_add] at hcur1
  have hw : wrapInt32 ((ingest s pre).state._fwUpdateCurrentLength + (c : Int)) = -2 ^ 31 := by
    rw [hcur1, hsum]
    norm_num [wrapInt32]
  have hrs : ((ingest s pre).state._updateFirmware c).restarted = false := by
    rw [updateFirmware_restarted, hw, htot1]
    decide
  have hst := updateFirmware_state (ingest s pre).state c
  rw [hw] at hst
  rw [ingest_append pre [c] s hrun, ingest_cons_running _ c [] hrs, ingest_nil]
  simp only
  rw [hst]

/-- Chunks of 128 bytes that add up to `2 ^ 31` bytes make the current length of a download
of unknown length negative. -/
theorem ingest_unknown_length_wraps_chunks (s : SimpleIOT) (n : Nat)
    (htotal : s._fwUpdateTotalLength = -1) (hcur : s._fwUpdateCurrentLength = 0)
    (hn : n * 128 + 128 = 2 ^ 31) :
    ((List.replicate n 128 ++ [128]).sum : Int) = 2 ^ 31 ∧
    (∀ c ∈ List.replicate n 128 ++ [128], 0 < c) ∧
    (ingest s (List.replicate n 128 ++ [128])).state._fwUpdateCurrentLength = -2 ^ 31 := by
  have hbytes : (List.replicate n 128).sum + 128 = 2 ^ 31 := by
    rw [List.sum_replicate, smul_eq_mul]
    exact hn
  refine ⟨?_, ?_, ?_⟩
  · rw [List.sum_append, List.sum_singleton, hbytes]
    norm_num
  · intro c hc
    rcases List.mem_append.mp hc with h | h
    · rw [List.eq_of_mem_replicate h]
      norm_num
    · rw [List.mem_singleton.mp h]
      norm_num
  · exact ingest_unknown_length_wraps s (List.replicate n 128) 128 htotal hcur (by norm_num)
      hbytes

/-! ## C18: statements -/

/-- C18, as stated, fails once `2 ^ 31` bytes have been delivered: after 16777216 chunks of
128 bytes of a download of unknown length (2147483648 bytes in all), the current length,
a 32-bit `int`, is `-2 ^ 31`, not the sum of the chunk sizes. -/
theorem current_length_wraps_at_two_gib :
    ((List.replicate 16777215 128 ++ [128]).sum : Int) = 2 ^ 31 ∧
    (∀ c ∈ List.replicate 16777215 128 ++ [128], 0 < c) ∧
    (ingest (demoDevice.startDownload true (-1))
      (List.replicate 16777215 128 ++ [128])).state._fwUpdateCurrentLength = -2 ^ 31 :=
  ingest_unknown_length_wraps_chunks (demoDevice.startDownload true (-1)) 16777215 rfl rfl
    (by norm_num)

/-- C18, amended: when the total length is the unknown sentinel -1, for every sequence of
chunks whose sizes total less than `2 ^ 31` bytes, every chunk is written through, the
current length equals the sum of the chunk sizes, and the completion branch is never
taken: the device does not restart, and no flash commit and no "received" message is
emitted. -/
theorem unknown_length_counts_and_never_completes (s : SimpleIOT) (cb : Bool)
    (chunks : List Nat) (hsum : (chunks.sum : Int) < 2 ^ 31) :
    writtenChunks (ingest (s.startDownload cb (-1)) chunks).events = chunks ∧
    (ingest (s.startDownload cb (-1)) chunks).state._fwUpdateCurrentLength =
      (chunks.sum : Int) ∧
    (ingest (s.startDownload cb (-1)) chunks).restarted = false ∧
    Event.updateEnd ∉ (ingest (s.startDownload cb (-1)) chunks).events ∧
    publishedTopics (ingest (s.startDownload cb (-1)) chunks).events = [] := by
  obtain ⟨h1, _, h3, h4, h5, h6⟩ := ingest_unknown_length chunks (s.startDownload cb (-1)) rfl
    (le_refl _) (by simp only [startDownload]; omega)
  refine ⟨h4, ?_, h1, h5, h6⟩
  rw [h3]
  simp [startDownload]

/-- C18, amended, on chunks of 100, 100 and 56 bytes of a download of unknown length. -/
theorem unknown_length_counts_and_never_completes_witness :
    writtenChunks (ingest (demoDevice.startDownload true (-1)) [100, 100, 56]).events =
      [100, 100, 56] ∧
    (ingest (demoDevice.startDownload true (-1)) [100, 100, 56]).state._fwUpdateCurrentLength =
      (([100, 100, 56] : List Nat).sum : Int) ∧
    (ingest (demoDevice.startDownload true (-1)) [100, 100, 56]).restarted = false ∧
    Event.updateEnd ∉ (ingest (demoDevice.startDownload true (-1)) [100, 100, 56]).events ∧
    publishedTopics (ingest (demoDevice.startDownload true (-1)) [100, 100, 56]).events = [] :=
  unknown_length_counts_and_never_completes demoDevice true [100, 100, 56] (by decide)

end SimpleIOT

/-! ## C19: what the update-trigger dispatch depends on -/

namespace SimpleIOT

/-- On a topic with the update-trigger prefix `_invokeCallback` reads only the members
`version` and `url` of the document. -/
theorem invokeCallback_update_topic (s : SimpleIOT) (topic : CStr) (jdoc : JsonDocument)
    (hstarts : "simpleiot_v1/adm/update".toList <+: topic) :
    s._invokeCallback topic jdoc =
      if s._triggerUpdateCallback then
        some (s, [Event.triggerUpdateCallback
          (arduinoString (jdoc.getMember "version".toList).asCString)
          (arduinoString (jdoc.getMember "url".toList).asCString)
          SimpleIOTUpdateType.UPDATE_FIRMWARE])
      else none := by
  have hclass : classify topic = MessageClass.updateTrigger := by
    rw [classify_eq_classifyRef]
    unfold classifyRef
    rw [if_pos hstarts]
  unfold _invokeCallback
  rw [hclass]

/-- C19: the update-trigger dispatch depends neither on the addressing nor on the guard
members of the envelope. For every two messages whose topics have the update-trigger
prefix and whose envelopes agree on `version` and `url`, `_invokeCallback` does the same
whatever their `device`, `md5` and `force` members and the rest of their topics are; with
a trigger handler registered it calls the handler with that version and URL, also when
`device` is not the serial number of this device. -/
theorem trigger_dispatch_ignores_addressing (s : SimpleIOT) (topic1 topic2 : CStr)
    (jdoc1 jdoc2 : JsonDocument)
    (hstarts1 : "simpleiot_v1/adm/update".toList <+: topic1)
    (hstarts2 : "simpleiot_v1/adm/update".toList <+: topic2)
    (hversion : jdoc1.getMember "version".toList = jdoc2.getMember "version".toList)
    (hurl : jdoc1.getMember "url".toList = jdoc2.getMember "url".toList) :
    s._invokeCallback topic1 jdoc1 = s._invokeCallback topic2 jdoc2 ∧
    (s._triggerUpdateCallback = true →
      jdoc1.getMember "device".toList ≠ JsonVariant.str s._serialNumber →
      s._invokeCallback topic1 jdoc1 =
        some (s, [Event.triggerUpdateCallback
          (arduinoString (jdoc1.getMember "version".toList).asCString)
          (arduinoString (jdoc1.getMember "url".toList).asCString)
          SimpleIOTUpdateType.UPDATE_FIRMWARE])) := by
  rw [invokeCallback_update_topic s topic1 jdoc1 hstarts1,
    invokeCallback_update_topic s topic2 jdoc2 hstarts2, hversion, hurl]
  refine ⟨rfl, ?_⟩
  intro hcb _
  rw [hcb]
  rfl

/-- C19 on two triggers for version 1.0.1: one addressed to this device, the other addressed
to another device on another topic, with an `md5` member and `force` false. Both reach
the trigger handler with the same arguments. -/
theorem trigger_dispatch_ignores_addressing_witness :
    demoDevice._invokeCallback "simpleiot_v1/adm/update/Sunshine/M1/TIE-DEMO01".toList
        [("device".toList, JsonVariant.str "TIE-DEMO01".toList),
         ("version".toList, JsonVariant.str "1.0.1".toList),
         ("url".toList, JsonVariant.str "https://example.com/fw.bin".toList)] =
      demoDevice._invokeCallback "simpleiot_v1/adm/update/Other/X9/SN-42".toList
        [("device".toList, JsonVariant.str "SN-42".toList),
         ("version".toList, JsonVariant.str "1.0.1".toList),
         ("url".toList, JsonVariant.str "https://example.com/fw.bin".toList),
         ("md5".toList, JsonVariant.str "9e107d9d372bb6826bd81d3542a419d6".toList),
         ("force".toList, JsonVariant.bool false)] ∧
    demoDevice._invokeCallback "simpleiot_v1/adm/update/Other/X9/SN-42".toList
        [("device".toList, JsonVariant.str "SN-42".toList),
         ("version".toList, JsonVariant.str "1.0.1".toList),
         ("url".toList, JsonVariant.str "https://example.com/fw.bin".toList),
         ("md5".toList, JsonVariant.str "9e107d9d372bb6826bd81d3542a419d6".toList),
         ("force".toList, JsonVariant.bool false)] =
      some (demoDevice, [Event.triggerUpdateCallback "1.0.1".toList
        "https://example.com/fw.bin".toList SimpleIOTUpdateType.UPDATE_FIRMWARE]) :=
  ⟨(trigger_dispatch_ignores_addressing demoDevice
      "simpleiot_v1/adm/update/Sunshine/M1/TIE-DEMO01".toList
      "simpleiot_v1/adm/update/Other/X9/SN-42".toList
      [("device".toList, JsonVariant.str "TIE-DEMO01".toList),
       ("version".toList, JsonVariant.str "1.0.1".toList),
       ("url".toList, JsonVariant.str "https://example.com/fw.bin".toList)]
      [("device".toList, JsonVariant.str "SN-42".toList),
       ("version".toList, JsonVariant.str "1.0.1".toList),
       ("url".toList, JsonVariant.str "https://example.com/fw.bin".toList),
       ("md5".toList, JsonVariant.str "9e107d9d372bb6826bd81d3542a419d6".toList),
       ("force".toList, JsonVariant.bool false)]
      (by decide) (by decide) (by decide) (by decide)).1,
    (trigger_dispatch_ignores_addressing demoDevice
      "simpleiot_v1/adm/update/Other/X9/SN-42".toList
      "simpleiot_v1/adm/update/Other/X9/SN-42".toList
      [("device".toList, JsonVariant.str "SN-42".toList),
       ("version".toList, JsonVariant.str "1.0.1".toList),
       ("url".toList, JsonVariant.str "https://example.com/fw.bin".toList),
       ("md5".toList, JsonVariant.str "9e107d9d372bb6826bd81d3542a419d6".toList),
       ("force".toList, JsonVariant.bool false)]
      [("device".toList, JsonVariant.str "SN-42".toList),
       ("version".toList, JsonVariant.str "1.0.1".toList),
       ("url".toList, JsonVariant.str "https://example.com/fw.bin".toList),
       ("md5".toList, JsonVariant.str "9e107d9d372bb6826bd81d3542a419d6".toList),
       ("force".toList, JsonVariant.bool false)]
      (by decide) (by decide) rfl rfl).2 (by decide) (by decide)⟩

end SimpleIOT
